import Mathlib

/-!
# Session and tunnel registries of the server core

A state-passing model of `server/core/sessions.go` and `server/core/tunnels.go`.

* Go maps are association lists keyed by the (unsigned) integer key; a lookup of a
  missing key gives `none`, which is Go's nil pointer for the pointer-valued maps here.
* Channels live in a heap (a list); a channel value is an index into it. An index
  outside the heap stands for Go's nil channel: a send on it never returns and a close
  of it panics. The channels are unbuffered, so a send completes only as a hand-over to
  a receiver, and a channel records the values handed over so far. Whether some
  goroutine ever receives from the channel is an input of the call that sends: with a
  receiver the send completes, without one the call never returns.
* What else the environment does while a call waits (which value, if any, arrives on
  which channel before the timer of `Request` fires) is an input of the call as well.
* Every call runs alone: the mutexes are taken and released inside each call and are
  not part of the state.
* A call either returns, panics (run-time error) or never returns.
-/

namespace Sliver

/-- A Go `[]byte`; `none` is the nil slice. -/
abbrev ByteSlice := Option (List (Fin 256))

/-- Go maps with integer keys (`map[uint32]T`, `map[uint64]T`). -/
abbrev GoMap (V : Type) := List (Nat × V)

/-- Reading `m[k]`; `none` when the key is missing. -/
def mapGet {V : Type} : GoMap V → Nat → Option V
  | [], _ => none
  | (k', v) :: rest, k => if k' = k then some v else mapGet rest k

/-- The statement `delete(m, k)`. -/
def mapDelete {V : Type} (m : GoMap V) (k : Nat) : GoMap V :=
  m.filter (fun p => decide (p.1 ≠ k))

/-- The statement `m[k] = v`. -/
def mapSet {V : Type} (m : GoMap V) (k : Nat) (v : V) : GoMap V :=
  (k, v) :: mapDelete m k

/-- An unbuffered Go channel: whether `close` was called on it and the values handed
over on it so far, oldest first. -/
structure Chan (α : Type) where
  closed : Bool
  sent : List α
deriving DecidableEq, Repr

/-- What a channel statement does to the heap of channels. -/
inductive ChanResult (α : Type) where
  | ok (heap : List (Chan α))
  | panic
  | blocked
deriving DecidableEq, Repr

/-- The expression `make(chan T)`: a new open channel; its index and the grown heap. -/
def makeChan {α : Type} (heap : List (Chan α)) : Nat × List (Chan α) :=
  (heap.length, heap ++ [{ closed := false, sent := [] }])

/-- The statement `c <- v` on an unbuffered channel. A nil channel blocks for ever and a
closed one panics; an open one hands the value over when some goroutine receives from
it (`receiver`) and blocks for ever when none does. -/
def chanSend {α : Type} (heap : List (Chan α)) (c : Nat) (v : α) (receiver : Bool) :
    ChanResult α :=
  match heap[c]? with
  | none => .blocked
  | some ch =>
    if ch.closed then .panic
    else if receiver then .ok (heap.set c { ch with sent := ch.sent ++ [v] })
    else .blocked

/-- The statement `close(c)`. Closing a nil or an already closed channel panics. -/
def chanClose {α : Type} (heap : List (Chan α)) (c : Nat) : ChanResult α :=
  match heap[c]? with
  | none => .panic
  | some ch =>
    if ch.closed then .panic
    else .ok (heap.set c { ch with closed := true })

/-- A receive `v = <-c` that fires: the value `v` was handed over on `c`. -/
def chanDeliver {α : Type} (heap : List (Chan α)) (c : Nat) (v : α) : List (Chan α) :=
  match heap[c]? with
  | none => heap
  | some ch => heap.set c { ch with sent := ch.sent ++ [v] }

/-- The channel `c` is allocated and not closed. -/
def chanOpen {α : Type} (heap : List (Chan α)) (c : Nat) : Bool :=
  match heap[c]? with
  | some ch => !ch.closed
  | none => false

/-- The channel `c` is allocated and closed. -/
def chanClosed {α : Type} (heap : List (Chan α)) (c : Nat) : Bool :=
  match heap[c]? with
  | some ch => ch.closed
  | none => false

/-- The values handed over on channel `c` so far (what its readers have read). -/
def chanHistory {α : Type} (heap : List (Chan α)) (c : Nat) : List α :=
  match heap[c]? with
  | some ch => ch.sent
  | none => []

/-- Modelled from the spec: the envelope message of the protobuf package (not among the
sources): a correlation id, a message type and a payload. -/
structure Envelope where
  ID : Nat
  Type_ : Nat
  Data : ByteSlice
deriving DecidableEq, Repr

/-- Modelled from the spec: the tunnel-close control message of the protobuf package
(not among the sources). -/
structure TunnelClose where
  TunnelID : Nat
  SessionID : Nat
deriving DecidableEq, Repr

/-- The `Session` struct. `Send` is an index into the heap of envelope channels and
`Resp` an index into the heap of pending tables. -/
structure Session where
  ID : Nat
  Name : String
  Hostname : String
  Username : String
  UID : String
  GID : String
  Os : String
  Version : String
  Arch : String
  Transport : String
  RemoteAddress : String
  PID : Int
  Filename : String
  LastCheckin : Option Int
  Send : Nat
  Resp : Nat
  ActiveC2 : String
deriving DecidableEq, Repr

/-- The `DuplexConnection` struct: two indices into the heap of byte channels. -/
structure DuplexConnection where
  Send : Nat
  Recv : Nat
deriving DecidableEq, Repr

/-- The `Tunnel` struct. -/
structure Tunnel where
  ID : Nat
  SessionID : Nat
  Session : DuplexConnection
  Client : DuplexConnection
deriving DecidableEq, Repr

/-- Modelled from the spec: the event handed to the broker (its declaration is not among
the sources): a kind and the session it is about, which may be nil. -/
structure Event where
  EventType : String
  Session : Option Session
deriving DecidableEq, Repr

/-- Go `error` values this package returns. -/
inductive GoError where
  | ErrInvalidTunnelID
  | timeout
  | proto (msg : String)
deriving DecidableEq, Repr

/-- The text of an error, as `Error()` gives it. -/
def GoError.Error : GoError → String
  | .ErrInvalidTunnelID => "Invalid tunnel ID"
  | .timeout => "timeout"
  | .proto msg => msg

/-- What the two files import and do not define: the two event-kind constants, the
tunnel-close message type and the protobuf serializer at the two messages it is used on. -/
structure Externals where
  SessionOpenedEvent : String
  SessionClosedEvent : String
  MsgTunnelClose : Nat
  marshalTunnelClose : TunnelClose → Except String ByteSlice
  marshalEnvelope : Envelope → Except String ByteSlice

/-- The package state: the two registries, the id counter, what the event broker was
handed, and the heaps of envelope channels, byte channels and pending tables. -/
structure World where
  sessions : GoMap Session
  tunnels : GoMap Tunnel
  hiveID : Nat
  published : List Event
  envChans : List (Chan (Option Envelope))
  byteChans : List (Chan ByteSlice)
  respTables : List (GoMap Nat)
deriving DecidableEq, Repr

/-- The state at process start: empty registries, counter zero. -/
def World.init : World :=
  { sessions := [], tunnels := [], hiveID := 0, published := [],
    envChans := [], byteChans := [], respTables := [] }

/-- How a call ends: it returns a value, it panics, or it never returns. Each carries
the state it leaves. -/
inductive Outcome (α : Type) where
  | ok (val : α) (σ : World)
  | panic (σ : World)
  | blocked (σ : World)
deriving DecidableEq, Repr

/-- The state a call leaves. -/
def Outcome.world {α : Type} : Outcome α → World
  | .ok _ σ => σ
  | .panic σ => σ
  | .blocked σ => σ

/-- Modelled from the spec: `EventBroker.Publish` (not among the sources), consumed
only as a publish call: the event is recorded after those published before. -/
def EventBroker.Publish (e : Event) (σ : World) : World :=
  { σ with published := σ.published ++ [e] }

/-! ## sessions.go -/

/-- The pending table `s.Resp` is written at `reqID`; `none` when the map is nil
(assignment to an entry of a nil map panics). -/
def respSet (σ : World) (tbl reqID resp : Nat) : Option World :=
  match σ.respTables[tbl]? with
  | none => none
  | some m => some { σ with respTables := σ.respTables.set tbl (mapSet m reqID resp) }

/-- The statement `delete(s.Resp, reqID)`; on a nil map it does nothing. -/
def respDelete (σ : World) (tbl reqID : Nat) : World :=
  match σ.respTables[tbl]? with
  | none => σ
  | some m => { σ with respTables := σ.respTables.set tbl (mapDelete m reqID) }

/-- Reading the pending table `s.Resp` at `reqID`. -/
def respGet (σ : World) (tbl reqID : Nat) : Option Nat :=
  match σ.respTables[tbl]? with
  | none => none
  | some m => mapGet m reqID

/-- What the environment does while `Request` waits in its `select`, as a function of
the state it sees then: `some (c, v)` when a goroutine sends the pointer `v` (`none` is
the nil pointer) on channel `c` before the timer fires, `none` when nothing is sent. -/
abbrev Arrival := World → Option (Nat × Option Envelope)

/-- Modelled from the spec: the delivery done by the read pump of the transport (not
among the sources). On an inbound envelope it looks the correlation id up in the
pending table of the session; when an entry is there it sends the envelope on the
registered channel, otherwise it drops it. Without an inbound envelope nothing is
sent. -/
def readPump (s : Session) (inbound : Option Envelope) : Arrival := fun σ =>
  match inbound with
  | none => none
  | some e =>
    match respGet σ s.Resp e.ID with
    | none => none
    | some c => some (c, some e)

/-- The method `(*Session).Request`. `reqID` is what `EnvelopeID()` returned, `receiver`
says whether a goroutine receives from `s.Send`, and `arrival` what is sent while the
call waits; the case `<-resp` of the `select` fires when a value arrives on `resp`, and
the timer case otherwise. The duration itself plays no other part. -/
def Session.Request (s : Session) (reqID : Nat) (msgType : Nat) (_timeout : Int)
    (data : ByteSlice) (receiver : Bool) (arrival : Arrival) (σ : World) :
    Outcome (ByteSlice × Option GoError) :=
  -- resp := make(chan *sliverpb.Envelope)
  let resp := (makeChan σ.envChans).1
  let σ1 : World := { σ with envChans := (makeChan σ.envChans).2 }
  -- s.Resp[reqID] = resp
  match respSet σ1 s.Resp reqID resp with
  | none => .panic σ1
  | some σ2 =>
    -- defer func() { delete(s.Resp, reqID) }()
    let deferred : World → World := fun w => respDelete w s.Resp reqID
    -- s.Send <- &sliverpb.Envelope{ID: reqID, Type: msgType, Data: data}
    match chanSend σ2.envChans s.Send (some { ID := reqID, Type_ := msgType, Data := data })
        receiver with
    | .blocked => .blocked σ2
    | .panic => .panic (deferred σ2)
    | .ok heap =>
      let σ3 : World := { σ2 with envChans := heap }
      match arrival σ3 with
      | none =>
        -- case <-time.After(timeout): return nil, errors.New("timeout")
        .ok (none, some .timeout) (deferred σ3)
      | some (c, respEnvelope) =>
        if c = resp then
          -- case respEnvelope = <-resp:
          let σ4 : World := { σ3 with envChans := chanDeliver σ3.envChans resp respEnvelope }
          -- return respEnvelope.Data, nil
          match respEnvelope with
          | none => .panic (deferred σ4)
          | some e => .ok (e.Data, none) (deferred σ4)
        else
          -- nothing arrives on resp: case <-time.After(timeout)
          .ok (none, some .timeout) (deferred σ3)

/-- The method `(*sessions).Get`. -/
def sessions.Get (σ : World) (sessionID : Nat) : Option Session :=
  mapGet σ.sessions sessionID

/-- The method `(*sessions).All`. Go leaves the order of a map iteration open; here the
sessions come in the order the entries are stored. -/
def sessions.All (σ : World) : List Session :=
  σ.sessions.map (fun p => p.2)

/-- The method `(*sessions).Add`. Reading `session.ID` of a nil pointer panics. -/
def sessions.Add (x : Externals) (session : Option Session) (σ : World) :
    Outcome (Option Session) :=
  match session with
  | none => .panic σ
  | some s =>
    let σ1 : World := { σ with sessions := mapSet σ.sessions s.ID s }
    .ok (some s)
      (EventBroker.Publish { EventType := x.SessionOpenedEvent, Session := some s } σ1)

/-- The method `(*sessions).Remove`. -/
def sessions.Remove (x : Externals) (sessionID : Nat) (σ : World) : Outcome Unit :=
  let session := mapGet σ.sessions sessionID
  let σ1 : World := { σ with sessions := mapDelete σ.sessions sessionID }
  .ok () (EventBroker.Publish { EventType := x.SessionClosedEvent, Session := session } σ1)

/-- The function `NextSessionID`: the value returned and the state left. The counter
is a `uint32`, so the sum wraps at `2 ^ 32`. -/
def NextSessionID (σ : World) : Nat × World :=
  -- newID := (*hiveID) + 1
  let newID := (σ.hiveID + 1) % 2 ^ 32
  -- (*hiveID)++
  (newID, { σ with hiveID := (σ.hiveID + 1) % 2 ^ 32 })

/-- The values returned by `n` calls of `NextSessionID` made one after the other, in
call order, and the state left. -/
def callNextSessionID : Nat → World → List Nat × World
  | 0, σ => ([], σ)
  | n + 1, σ =>
    let r := NextSessionID σ
    (r.1 :: (callNextSessionID n r.2).1, (callNextSessionID n r.2).2)

/-! ## tunnels.go -/

/-- The method `(*tunnels).Get`. -/
def tunnels.Get (σ : World) (tunnelID : Nat) : Option Tunnel :=
  mapGet σ.tunnels tunnelID

/-- The method `(*tunnels).Create`. `tunnelID` is what `NewTunnelID()` returned: a
`uint64` read from eight random bytes (its comment in the source says 32bit). Reading
`session.ID` of a nil pointer panics. -/
def tunnels.Create (sessionID : Nat) (tunnelID : Nat) (σ : World) : Outcome Tunnel :=
  let session := sessions.Get σ sessionID
  -- fromClient := make(chan []byte)
  let fromClient := (makeChan σ.byteChans).1
  let heap1 := (makeChan σ.byteChans).2
  -- toClient := make(chan []byte)
  let toClient := (makeChan heap1).1
  let σ1 : World := { σ with byteChans := (makeChan heap1).2 }
  match session with
  | none => .panic σ1
  | some s =>
    let tunnel : Tunnel :=
      { ID := tunnelID
        SessionID := s.ID
        Client := { Send := toClient, Recv := fromClient }
        Session := { Send := fromClient, Recv := toClient } }
    .ok tunnel { σ1 with tunnels := mapSet σ1.tunnels tunnel.ID tunnel }

/-- The last three statements of `(*tunnels).Close`, run once the control message has
been handed over: close both client-facing channels, then drop the entry. -/
def tunnels.closeTeardown (tunnel : Tunnel) (tunnelID : Nat) (σ : World) :
    Outcome (Option GoError) :=
  -- close(tunnel.Client.Send)
  match chanClose σ.byteChans tunnel.Client.Send with
  | .blocked => .blocked σ
  | .panic => .panic σ
  | .ok heap2 =>
    -- close(tunnel.Client.Recv)
    match chanClose heap2 tunnel.Client.Recv with
    | .blocked => .blocked { σ with byteChans := heap2 }
    | .panic => .panic { σ with byteChans := heap2 }
    | .ok heap3 =>
      -- delete(*t.tunnels, tunnelID)
      .ok none { σ with byteChans := heap3, tunnels := mapDelete σ.tunnels tunnelID }

/-- The method `(*tunnels).Close`. `receiver` says whether a goroutine receives from
`tunnel.Session.Send`. -/
def tunnels.Close (x : Externals) (tunnelID : Nat) (receiver : Bool) (σ : World) :
    Outcome (Option GoError) :=
  match mapGet σ.tunnels tunnelID with
  | none => .ok (some .ErrInvalidTunnelID) σ
  | some tunnel =>
    match x.marshalTunnelClose { TunnelID := tunnel.ID, SessionID := tunnel.SessionID } with
    | .error err => .ok (some (.proto err)) σ
    | .ok tunnelClose =>
      match x.marshalEnvelope { ID := 0, Type_ := x.MsgTunnelClose, Data := tunnelClose } with
      | .error err => .ok (some (.proto err)) σ
      | .ok data =>
        -- tunnel.Session.Send <- data
        match chanSend σ.byteChans tunnel.Session.Send data receiver with
        | .blocked => .blocked σ
        | .panic => .panic σ
        | .ok heap1 => tunnels.closeTeardown tunnel tunnelID { σ with byteChans := heap1 }

/-! ## Runs of the package -/

/-- One step of a run: a call of an operation of the two files with its arguments and
what its environment supplied (the id drawn, whether the value sent finds a receiver,
what arrives while the call waits), or the transport allocating the send channel or
the pending table of a session it is about to register. -/
inductive Call where
  | add (session : Option Session)
  | remove (sessionID : Nat)
  | nextSessionID
  | request (s : Session) (reqID msgType : Nat) (timeout : Int) (data : ByteSlice)
      (receiver : Bool) (arrival : Arrival)
  | create (sessionID tunnelID : Nat)
  | close (tunnelID : Nat) (receiver : Bool)
  | makeSendChan
  | makeRespTable

/-- The state one step leaves. -/
def step (x : Externals) : Call → World → World
  | .add session, σ => (sessions.Add x session σ).world
  | .remove sessionID, σ => (sessions.Remove x sessionID σ).world
  | .nextSessionID, σ => (NextSessionID σ).2
  | .request s reqID msgType timeout data receiver arrival, σ =>
    (Session.Request s reqID msgType timeout data receiver arrival σ).world
  | .create sessionID tunnelID, σ => (tunnels.Create sessionID tunnelID σ).world
  | .close tunnelID receiver, σ => (tunnels.Close x tunnelID receiver σ).world
  | .makeSendChan, σ => { σ with envChans := (makeChan σ.envChans).2 }
  | .makeRespTable, σ => { σ with respTables := σ.respTables ++ [[]] }

/-- The state a sequence of steps leaves. -/
def run (x : Externals) : List Call → World → World
  | [], σ => σ
  | c :: rest, σ => run x rest (step x c σ)

/-! ## Invariants of the registries -/

/-- Every session in the registry is stored under its own id, as `Add` stores it. -/
def sessionsKeyed (σ : World) : Prop :=
  ∀ p ∈ σ.sessions, p.2.ID = p.1

instance sessionsKeyed.decide (σ : World) : Decidable (sessionsKeyed σ) := by
  unfold sessionsKeyed; infer_instance

/-- The four channel fields of a tunnel. -/
def Tunnel.chans (t : Tunnel) : List Nat :=
  [t.Session.Send, t.Session.Recv, t.Client.Send, t.Client.Recv]

/-- A tunnel as `Create` builds it: two distinct open channels, cross-wired. -/
def tunnelLive (heap : List (Chan ByteSlice)) (t : Tunnel) : Prop :=
  chanOpen heap t.Client.Send = true ∧ chanOpen heap t.Client.Recv = true ∧
  t.Client.Send ≠ t.Client.Recv ∧
  t.Session.Send = t.Client.Recv ∧ t.Session.Recv = t.Client.Send

instance tunnelLive.decide (heap : List (Chan ByteSlice)) (t : Tunnel) :
    Decidable (tunnelLive heap t) := by
  unfold tunnelLive; infer_instance

/-- The tunnel registry as `Create` and `Close` keep it: every tunnel is stored under its
own id and is as `Create` built it, and tunnels under different ids share no channel. -/
def tunnelsLive (σ : World) : Prop :=
  (∀ p ∈ σ.tunnels, p.2.ID = p.1 ∧ tunnelLive σ.byteChans p.2) ∧
  (∀ p ∈ σ.tunnels, ∀ q ∈ σ.tunnels, p.1 ≠ q.1 → ∀ c ∈ p.2.chans, c ∉ q.2.chans)

instance tunnelsLive.decide (σ : World) : Decidable (tunnelsLive σ) := by
  unfold tunnelsLive; infer_instance

/-! ## Sample inputs -/

/-- Sample values for what the two files import: event kinds, the tunnel-close message
type, and a serializer that never fails and writes the low byte of each field. -/
def sampleExternals : Externals :=
  { SessionOpenedEvent := "session-opened"
    SessionClosedEvent := "session-closed"
    MsgTunnelClose := 9
    marshalTunnelClose := fun m => .ok (some [Fin.ofNat m.TunnelID, Fin.ofNat m.SessionID])
    marshalEnvelope := fun e =>
      .ok (some (Fin.ofNat e.ID :: Fin.ofNat e.Type_ :: e.Data.getD [])) }

/-- Sample externals whose serializer fails on the tunnel-close message. -/
def failingExternals : Externals :=
  { sampleExternals with marshalTunnelClose := fun _ => .error "cannot serialize" }

/-- A sample session with id 1, send channel 0 and pending table 0. -/
def sampleSession : Session :=
  { ID := 1, Name := "alpha", Hostname := "host", Username := "user", UID := "1000",
    GID := "1000", Os := "linux", Version := "1", Arch := "amd64", Transport := "mtls",
    RemoteAddress := "10.0.0.2:4444", PID := 77, Filename := "a.out", LastCheckin := none,
    Send := 0, Resp := 0, ActiveC2 := "mtls://10.0.0.1" }

/-- A state in which the counter has reached the largest `uint32`. -/
def lastCounterWorld : World :=
  { World.init with hiveID := 4294967295 }

/-- A state with the sample session registered, its send channel and its (empty)
pending table allocated. -/
def sampleWorld : World :=
  (sessions.Add sampleExternals (some sampleSession)
    { World.init with envChans := [{ closed := false, sent := [] }], respTables := [[]] }).world

/-- The sample state after `Create(1)` drew the tunnel id 7. -/
def tunnelWorld : World :=
  (tunnels.Create 1 7 sampleWorld).world

/-- The sample state after a second `Create(1)` drew the tunnel id 8. -/
def twoTunnelWorld : World :=
  (tunnels.Create 1 8 tunnelWorld).world

/-- The tunnel that the second `Create(1)` returns. -/
def secondTunnel : Tunnel :=
  { ID := 8, SessionID := 1, Session := { Send := 2, Recv := 3 },
    Client := { Send := 3, Recv := 2 } }

/-- The tunnel that `Create(1)` returns in the sample state. -/
def sampleTunnel : Tunnel :=
  { ID := 7, SessionID := 1, Session := { Send := 0, Recv := 1 },
    Client := { Send := 1, Recv := 0 } }

/-! ## Proofs -/

/-! ### Go maps -/

theorem mapGet_mapDelete_self {V : Type} (m : GoMap V) (k : Nat) :
    mapGet (mapDelete m k) k = none := by
  induction m with
  | nil => rfl
  | cons p rest ih =>
    obtain ⟨k', v⟩ := p
    by_cases h : k' = k
    · simpa [mapDelete, h] using ih
    · simpa [mapDelete, mapGet, h] using ih

theorem mapGet_mapDelete_of_ne {V : Type} (m : GoMap V) (k j : Nat) (hne : j ≠ k) :
    mapGet (mapDelete m k) j = mapGet m j := by
  induction m with
  | nil => rfl
  | cons p rest ih =>
    obtain ⟨k', v⟩ := p
    unfold mapDelete at ih ⊢
    by_cases h : k' = k
    · have hj : ¬ k' = j := fun e => hne (e.symm.trans h)
      rw [List.filter_cons_of_neg (by simpa using h)]
      simp only [mapGet, hj, if_false]
      exact ih
    · rw [List.filter_cons_of_pos (by simpa using h)]
      by_cases hj : k' = j
      · simp only [mapGet, hj, if_true]
      · simp only [mapGet, hj, if_false]
        exact ih

theorem mapGet_mapSet_self {V : Type} (m : GoMap V) (k : Nat) (v : V) :
    mapGet (mapSet m k v) k = some v := by
  simp [mapSet, mapGet]

theorem mapGet_mapSet_of_ne {V : Type} (m : GoMap V) (k j : Nat) (v : V) (hne : j ≠ k) :
    mapGet (mapSet m k v) j = mapGet m j := by
  have hk : ¬ k = j := fun e => hne e.symm
  simp [mapSet, mapGet, hk, mapGet_mapDelete_of_ne m k j hne]

theorem mem_of_mapGet {V : Type} (m : GoMap V) (k : Nat) (v : V)
    (h : mapGet m k = some v) : (k, v) ∈ m := by
  induction m with
  | nil => simp [mapGet] at h
  | cons p rest ih =>
    obtain ⟨k', w⟩ := p
    by_cases hk : k' = k
    · simp [mapGet, hk] at h
      simp [hk, h]
    · simp [mapGet, hk] at h
      exact List.mem_cons_of_mem _ (ih h)

theorem mem_mapDelete {V : Type} (m : GoMap V) (k : Nat) (p : Nat × V) :
    p ∈ mapDelete m k ↔ p ∈ m ∧ p.1 ≠ k := by
  simp [mapDelete]

/-! ### Channels -/

theorem chanOpen_iff {α : Type} (heap : List (Chan α)) (c : Nat) :
    chanOpen heap c = true ↔ ∃ ch, heap[c]? = some ch ∧ ch.closed = false := by
  unfold chanOpen
  cases h : heap[c]? with
  | none => simp
  | some ch => simp

theorem chanOpen_lt {α : Type} (heap : List (Chan α)) (c : Nat)
    (h : chanOpen heap c = true) : c < heap.length := by
  obtain ⟨ch, hch, _⟩ := (chanOpen_iff heap c).1 h
  exact (List.getElem?_eq_some.1 hch).1

theorem chanSend_of_get {α : Type} (heap : List (Chan α)) (c : Nat) (v : α) (ch : Chan α)
    (hch : heap[c]? = some ch) (hopen : ch.closed = false) :
    chanSend heap c v true = .ok (heap.set c { ch with sent := ch.sent ++ [v] }) := by
  simp [chanSend, hch, hopen]

theorem chanSend_no_receiver {α : Type} (heap : List (Chan α)) (c : Nat) (v : α) (ch : Chan α)
    (hch : heap[c]? = some ch) (hopen : ch.closed = false) :
    chanSend heap c v false = .blocked := by
  simp [chanSend, hch, hopen]

theorem chanClose_of_get {α : Type} (heap : List (Chan α)) (c : Nat) (ch : Chan α)
    (hch : heap[c]? = some ch) (hopen : ch.closed = false) :
    chanClose heap c = .ok (heap.set c { ch with closed := true }) := by
  simp [chanClose, hch, hopen]

theorem get_set_self {α : Type} (heap : List (Chan α)) (c : Nat) (ch new : Chan α)
    (hch : heap[c]? = some ch) : (heap.set c new)[c]? = some new := by
  have hlt : c < heap.length := (List.getElem?_eq_some.1 hch).1
  simp [List.getElem?_set, hlt]

theorem get_two_new_fst {α : Type} (heap : List (Chan α)) (a b : Chan α) :
    (heap ++ [a, b])[heap.length]? = some a := by
  rw [List.getElem?_append_right (Nat.le_refl _), Nat.sub_self]
  rfl

theorem get_two_new_snd {α : Type} (heap : List (Chan α)) (a b : Chan α) :
    (heap ++ [a, b])[heap.length + 1]? = some b := by
  have h : heap.length + 1 - heap.length = 1 := by omega
  rw [List.getElem?_append_right (Nat.le_succ _), h]
  rfl

/-! ### What the calls compute -/

theorem respDelete_fields (w : World) (tbl k : Nat) :
    (respDelete w tbl k).envChans = w.envChans ∧ (respDelete w tbl k).sessions = w.sessions ∧
    (respDelete w tbl k).tunnels = w.tunnels ∧ (respDelete w tbl k).byteChans = w.byteChans := by
  unfold respDelete
  split <;> exact ⟨rfl, rfl, rfl, rfl⟩

theorem respGet_respDelete (w : World) (tbl k j : Nat) :
    respGet (respDelete w tbl k) tbl j = if j = k then none else respGet w tbl j := by
  unfold respDelete respGet
  cases h : w.respTables[tbl]? with
  | none => simp [h]
  | some m =>
    have hl : tbl < w.respTables.length := (List.getElem?_eq_some.1 h).1
    have hs : (w.respTables.set tbl (mapDelete m k))[tbl]? = some (mapDelete m k) := by
      simp [List.getElem?_set, hl]
    simp only [hs]
    by_cases hj : j = k
    · simp only [hj, if_true]
      exact mapGet_mapDelete_self _ _
    · simp only [hj, if_false]
      exact mapGet_mapDelete_of_ne _ _ _ hj

theorem Session_Request_wait (σ : World) (s : Session) (reqID msgType : Nat) (timeout : Int)
    (data : ByteSlice) (m : GoMap Nat) (ch : Chan (Option Envelope))
    (hm : σ.respTables[s.Resp]? = some m)
    (hch : σ.envChans[s.Send]? = some ch) (hopen : ch.closed = false) :
    ∃ σw : World,
      σw.envChans = (σ.envChans ++ [(⟨false, []⟩ : Chan (Option Envelope))]).set s.Send
        ⟨ch.closed, ch.sent ++ [some ⟨reqID, msgType, data⟩]⟩ ∧
      σw.respTables = σ.respTables.set s.Resp (mapSet m reqID σ.envChans.length) ∧
      σw.sessions = σ.sessions ∧ σw.tunnels = σ.tunnels ∧ σw.byteChans = σ.byteChans ∧
      (∀ arrival : Arrival,
        Session.Request s reqID msgType timeout data false arrival σ
          = .blocked { σw with envChans := σ.envChans ++ [⟨false, []⟩] }) ∧
      ∀ arrival : Arrival,
        Session.Request s reqID msgType timeout data true arrival σ =
          match arrival σw with
          | none => .ok (none, some .timeout) (respDelete σw s.Resp reqID)
          | some (c, v) =>
            if c = σ.envChans.length then
              match v with
              | none =>
                .panic (respDelete
                  { σw with envChans := chanDeliver σw.envChans σ.envChans.length v }
                  s.Resp reqID)
              | some e =>
                .ok (e.Data, none) (respDelete
                  { σw with envChans := chanDeliver σw.envChans σ.envChans.length v }
                  s.Resp reqID)
            else .ok (none, some .timeout) (respDelete σw s.Resp reqID) := by
  have hlt : s.Send < σ.envChans.length := (List.getElem?_eq_some.1 hch).1
  have hch1 : (σ.envChans ++ [(⟨false, []⟩ : Chan (Option Envelope))])[s.Send]? = some ch := by
    rw [List.getElem?_append_left hlt]; exact hch
  refine ⟨{ σ with
      envChans := (σ.envChans ++ [(⟨false, []⟩ : Chan (Option Envelope))]).set s.Send
        ⟨ch.closed, ch.sent ++ [some ⟨reqID, msgType, data⟩]⟩
      respTables := σ.respTables.set s.Resp (mapSet m reqID σ.envChans.length) },
    rfl, rfl, rfl, rfl, rfl, ?_, ?_⟩
  · intro arrival
    simp only [Session.Request, makeChan, respSet, hm, chanSend_no_receiver _ _ _ _ hch1 hopen]
  · intro arrival
    simp only [Session.Request, makeChan, respSet, hm, chanSend_of_get _ _ _ _ hch1 hopen]

theorem Session_Request_done (σ σd : World) (s : Session) (reqID msgType : Nat)
    (data : ByteSlice) (m : GoMap Nat) (ch : Chan (Option Envelope))
    (hm : σ.respTables[s.Resp]? = some m)
    (hch : σ.envChans[s.Send]? = some ch)
    (htbl : σd.respTables = σ.respTables.set s.Resp (mapSet m reqID σ.envChans.length))
    (henv : σd.envChans = (σ.envChans ++ [(⟨false, []⟩ : Chan (Option Envelope))]).set s.Send
        ⟨ch.closed, ch.sent ++ [some ⟨reqID, msgType, data⟩]⟩ ∨
      ∃ v, σd.envChans = chanDeliver
        ((σ.envChans ++ [(⟨false, []⟩ : Chan (Option Envelope))]).set s.Send
          ⟨ch.closed, ch.sent ++ [some ⟨reqID, msgType, data⟩]⟩) σ.envChans.length v) :
    chanHistory (respDelete σd s.Resp reqID).envChans s.Send
      = chanHistory σ.envChans s.Send ++ [some { ID := reqID, Type_ := msgType, Data := data }] ∧
    (∀ c, c ≠ s.Send → c < σ.envChans.length →
      (respDelete σd s.Resp reqID).envChans[c]? = σ.envChans[c]?) ∧
    respGet (respDelete σd s.Resp reqID) s.Resp reqID = none ∧
    (∀ k, k ≠ reqID → respGet (respDelete σd s.Resp reqID) s.Resp k = respGet σ s.Resp k) := by
  have hlt : s.Send < σ.envChans.length := (List.getElem?_eq_some.1 hch).1
  have hch1 : (σ.envChans ++ [(⟨false, []⟩ : Chan (Option Envelope))])[s.Send]? = some ch := by
    rw [List.getElem?_append_left hlt]; exact hch
  have hsent : ∀ new : Chan (Option Envelope),
      ((σ.envChans ++ [(⟨false, []⟩ : Chan (Option Envelope))]).set s.Send new)[s.Send]?
        = some new := fun new => get_set_self _ _ _ _ hch1
  have hother : ∀ (new : Chan (Option Envelope)) (c : Nat), c ≠ s.Send → c < σ.envChans.length →
      ((σ.envChans ++ [(⟨false, []⟩ : Chan (Option Envelope))]).set s.Send new)[c]?
        = σ.envChans[c]? := by
    intro new c hc hcl
    rw [List.getElem?_set_ne (fun e => hc e.symm), List.getElem?_append_left hcl]
  have hdeliver : ∀ (heap : List (Chan (Option Envelope))) (v : Option Envelope) (c : Nat),
      c ≠ σ.envChans.length → (chanDeliver heap σ.envChans.length v)[c]? = heap[c]? := by
    intro heap v c hc
    unfold chanDeliver
    split
    · rfl
    · exact List.getElem?_set_ne (fun e => hc e.symm)
  have henv' : ∀ c, c < σ.envChans.length → σd.envChans[c]?
      = ((σ.envChans ++ [(⟨false, []⟩ : Chan (Option Envelope))]).set s.Send
          ⟨ch.closed, ch.sent ++ [some ⟨reqID, msgType, data⟩]⟩)[c]? := by
    intro c hc
    rcases henv with h | ⟨v, h⟩
    · rw [h]
    · rw [h, hdeliver _ _ _ (Nat.ne_of_lt hc)]
  have hget : ∀ k, respGet σd s.Resp k = mapGet (mapSet m reqID σ.envChans.length) k := by
    intro k
    have hl : s.Resp < σ.respTables.length := (List.getElem?_eq_some.1 hm).1
    have hs : (σ.respTables.set s.Resp (mapSet m reqID σ.envChans.length))[s.Resp]?
        = some (mapSet m reqID σ.envChans.length) := by
      simp [List.getElem?_set, hl]
    simp only [respGet, htbl, hs]
  rw [(respDelete_fields σd s.Resp reqID).1]
  refine ⟨?_, ?_, ?_, ?_⟩
  · simp only [chanHistory, henv' s.Send hlt, hsent, hch]
  · intro c hc hcl
    rw [henv' c hcl]
    exact hother _ c hc hcl
  · rw [respGet_respDelete]
    simp only [if_true]
  · intro k hk
    rw [respGet_respDelete, if_neg hk, hget k, mapGet_mapSet_of_ne _ _ _ _ hk]
    simp only [respGet, hm]

theorem Session_Request_frame (σ : World) (s : Session) (reqID msgType : Nat)
    (timeout : Int) (data : ByteSlice) (receiver : Bool) (arrival : Arrival) :
    (Session.Request s reqID msgType timeout data receiver arrival σ).world.sessions
      = σ.sessions ∧
    (Session.Request s reqID msgType timeout data receiver arrival σ).world.tunnels
      = σ.tunnels ∧
    (Session.Request s reqID msgType timeout data receiver arrival σ).world.byteChans
      = σ.byteChans := by
  have hdel : ∀ w : World, w.sessions = σ.sessions → w.tunnels = σ.tunnels →
      w.byteChans = σ.byteChans →
      (respDelete w s.Resp reqID).sessions = σ.sessions ∧
      (respDelete w s.Resp reqID).tunnels = σ.tunnels ∧
      (respDelete w s.Resp reqID).byteChans = σ.byteChans := by
    intro w h1 h2 h3
    obtain ⟨_, d1, d2, d3⟩ := respDelete_fields w s.Resp reqID
    exact ⟨d1.trans h1, d2.trans h2, d3.trans h3⟩
  unfold Session.Request
  simp only
  split
  · exact ⟨rfl, rfl, rfl⟩
  · rename_i σ2 hset
    have h2 : σ2.sessions = σ.sessions ∧ σ2.tunnels = σ.tunnels ∧
        σ2.byteChans = σ.byteChans := by
      unfold respSet at hset
      split at hset
      · simp at hset
      · simp only [Option.some.injEq] at hset
        rw [← hset]
        exact ⟨rfl, rfl, rfl⟩
    split
    · exact h2
    · exact hdel σ2 h2.1 h2.2.1 h2.2.2
    · split
      · exact hdel _ h2.1 h2.2.1 h2.2.2
      · split
        · split
          · exact hdel _ h2.1 h2.2.1 h2.2.2
          · exact hdel _ h2.1 h2.2.1 h2.2.2
        · exact hdel _ h2.1 h2.2.1 h2.2.2

theorem callNextSessionID_values (N : Nat) :
    ∀ σ : World, σ.hiveID + N < 2 ^ 32 →
      (callNextSessionID N σ).1 = List.range' (σ.hiveID + 1) N ∧
      (callNextSessionID N σ).2.hiveID = σ.hiveID + N := by
  induction N with
  | zero => intro σ _; exact ⟨rfl, rfl⟩
  | succ n ih =>
    intro σ h
    have hmod : (σ.hiveID + 1) % 2 ^ 32 = σ.hiveID + 1 := Nat.mod_eq_of_lt (by omega)
    have hnext : (NextSessionID σ).2.hiveID = σ.hiveID + 1 := by
      simp only [NextSessionID, hmod]
    obtain ⟨h1, h2⟩ := ih (NextSessionID σ).2 (by rw [hnext]; omega)
    constructor
    · simp only [callNextSessionID, List.range'_succ]
      rw [h1, hnext]
      simp only [NextSessionID, hmod]
    · simp only [callNextSessionID]
      rw [h2, hnext]; omega

theorem tunnels_Create_eq (σ : World) (sessionID tunnelID : Nat) (s : Session)
    (hGet : sessions.Get σ sessionID = some s) :
    tunnels.Create sessionID tunnelID σ =
      .ok { ID := tunnelID, SessionID := s.ID,
            Session := { Send := σ.byteChans.length, Recv := σ.byteChans.length + 1 },
            Client := { Send := σ.byteChans.length + 1, Recv := σ.byteChans.length } }
        { σ with
          byteChans := σ.byteChans ++
            [{ closed := false, sent := [] }, { closed := false, sent := [] }]
          tunnels := mapSet σ.tunnels tunnelID
            { ID := tunnelID, SessionID := s.ID,
              Session := { Send := σ.byteChans.length, Recv := σ.byteChans.length + 1 },
              Client := { Send := σ.byteChans.length + 1, Recv := σ.byteChans.length } } } := by
  simp [tunnels.Create, hGet, makeChan]

theorem tunnels_Create_sessions (σ : World) (sessionID tunnelID : Nat) :
    (tunnels.Create sessionID tunnelID σ).world.sessions = σ.sessions := by
  unfold tunnels.Create
  cases sessions.Get σ sessionID <;> rfl

theorem tunnels_Close_live (x : Externals) (σ : World) (tunnelID : Nat) (t : Tunnel)
    (tunnelClose data : ByteSlice)
    (hReg : tunnels.Get σ tunnelID = some t)
    (hm1 : x.marshalTunnelClose { TunnelID := t.ID, SessionID := t.SessionID } = .ok tunnelClose)
    (hm2 : x.marshalEnvelope { ID := 0, Type_ := x.MsgTunnelClose, Data := tunnelClose }
      = .ok data)
    (hLive : tunnelLive σ.byteChans t) :
    ∃ (cha chb : Chan ByteSlice) (heap1 heap3 : List (Chan ByteSlice)),
      σ.byteChans[t.Client.Send]? = some cha ∧ cha.closed = false ∧
      σ.byteChans[t.Client.Recv]? = some chb ∧ chb.closed = false ∧
      chanSend σ.byteChans t.Session.Send data true = .ok heap1 ∧
      heap1[t.Client.Send]? = some cha ∧
      heap1[t.Client.Recv]? = some { closed := false, sent := chb.sent ++ [data] } ∧
      (∀ c, c ≠ t.Client.Recv → heap1[c]? = σ.byteChans[c]?) ∧
      tunnels.Close x tunnelID true σ =
        tunnels.closeTeardown t tunnelID { σ with byteChans := heap1 } ∧
      tunnels.Close x tunnelID true σ =
        .ok none { σ with byteChans := heap3, tunnels := mapDelete σ.tunnels tunnelID } ∧
      heap3[t.Client.Send]? = some { closed := true, sent := cha.sent } ∧
      heap3[t.Client.Recv]? = some { closed := true, sent := chb.sent ++ [data] } ∧
      (∀ c, c ≠ t.Client.Send → c ≠ t.Client.Recv → heap3[c]? = σ.byteChans[c]?) := by
  obtain ⟨hoa, hob, hne, hss, _⟩ := hLive
  obtain ⟨cha, hcha, hca⟩ := (chanOpen_iff _ _).1 hoa
  obtain ⟨chb, hchb, hcb⟩ := (chanOpen_iff _ _).1 hob
  have hne' : t.Client.Recv ≠ t.Client.Send := fun e => hne e.symm
  have hsend : chanSend σ.byteChans t.Session.Send data true
      = .ok (σ.byteChans.set t.Client.Recv { chb with sent := chb.sent ++ [data] }) := by
    rw [hss]; exact chanSend_of_get _ _ _ _ hchb hcb
  have h1a : (σ.byteChans.set t.Client.Recv { chb with sent := chb.sent ++ [data] })[t.Client.Send]?
      = some cha := by
    rw [List.getElem?_set_ne hne']; exact hcha
  have h1b : (σ.byteChans.set t.Client.Recv { chb with sent := chb.sent ++ [data] })[t.Client.Recv]?
      = some { closed := false, sent := chb.sent ++ [data] } := by
    rw [get_set_self _ _ _ _ hchb, ← hcb]
  have hclose1 := chanClose_of_get _ _ _ h1a hca
  have h2b : ((σ.byteChans.set t.Client.Recv { chb with sent := chb.sent ++ [data] }).set
      t.Client.Send { cha with closed := true })[t.Client.Recv]?
      = some { closed := false, sent := chb.sent ++ [data] } := by
    rw [List.getElem?_set_ne hne]; exact h1b
  have hclose2 := chanClose_of_get _ _ _ h2b rfl
  have hteardown : tunnels.closeTeardown t tunnelID
      { σ with byteChans := σ.byteChans.set t.Client.Recv { chb with sent := chb.sent ++ [data] } }
      = .ok none { σ with
          byteChans := ((σ.byteChans.set t.Client.Recv
            { chb with sent := chb.sent ++ [data] }).set
            t.Client.Send { cha with closed := true }).set t.Client.Recv
            { closed := true, sent := chb.sent ++ [data] }
          tunnels := mapDelete σ.tunnels tunnelID } := by
    simp only [tunnels.closeTeardown, hclose1, hclose2]
  have hclose : tunnels.Close x tunnelID true σ = tunnels.closeTeardown t tunnelID
      { σ with byteChans := σ.byteChans.set t.Client.Recv { chb with sent := chb.sent ++ [data] } } := by
    unfold tunnels.Get at hReg
    simp only [tunnels.Close, hReg, hm1, hm2, hsend]
  refine ⟨cha, chb, _, _, hcha, hca, hchb, hcb, hsend, h1a, h1b, ?_, hclose,
    hclose.trans hteardown, ?_, ?_, ?_⟩
  · intro c hc
    exact List.getElem?_set_ne (fun e => hc e.symm)
  · rw [List.getElem?_set_ne hne', get_set_self _ _ _ _ h1a]
  · exact get_set_self _ _ _ _ h2b
  · intro c hca hcb
    rw [List.getElem?_set_ne (fun e => hcb e.symm), List.getElem?_set_ne (fun e => hca e.symm),
      List.getElem?_set_ne (fun e => hcb e.symm)]

theorem tunnels_Close_blocked (x : Externals) (σ : World) (tunnelID : Nat) (t : Tunnel)
    (tunnelClose data : ByteSlice)
    (hReg : tunnels.Get σ tunnelID = some t)
    (hm1 : x.marshalTunnelClose { TunnelID := t.ID, SessionID := t.SessionID } = .ok tunnelClose)
    (hm2 : x.marshalEnvelope { ID := 0, Type_ := x.MsgTunnelClose, Data := tunnelClose }
      = .ok data)
    (hLive : tunnelLive σ.byteChans t) :
    tunnels.Close x tunnelID false σ = .blocked σ := by
  obtain ⟨_, hob, _, hss, _⟩ := hLive
  obtain ⟨chb, hchb, hcb⟩ := (chanOpen_iff _ _).1 hob
  have hsend : chanSend σ.byteChans t.Session.Send data false = .blocked := by
    rw [hss]; exact chanSend_no_receiver _ _ _ _ hchb hcb
  unfold tunnels.Get at hReg
  simp only [tunnels.Close, hReg, hm1, hm2, hsend]

theorem tunnels_Create_then_Close (x : Externals) (σ0 : World) (sessionID tunnelID : Nat)
    (s : Session) (tunnelClose data : ByteSlice)
    (hGet : sessions.Get σ0 sessionID = some s)
    (hm1 : x.marshalTunnelClose { TunnelID := tunnelID, SessionID := s.ID } = .ok tunnelClose)
    (hm2 : x.marshalEnvelope { ID := 0, Type_ := x.MsgTunnelClose, Data := tunnelClose }
      = .ok data) :
    ∃ u σ1 σ2, tunnels.Create sessionID tunnelID σ0 = .ok u σ1 ∧
      chanOpen σ1.byteChans u.Session.Send = true ∧
      chanOpen σ1.byteChans u.Session.Recv = true ∧
      tunnels.Close x tunnelID true σ1 = .ok none σ2 ∧
      chanClosed σ2.byteChans u.Session.Send = true ∧
      chanClosed σ2.byteChans u.Session.Recv = true := by
  have hlive : tunnelLive (σ0.byteChans ++ [⟨false, []⟩, ⟨false, []⟩])
      { ID := tunnelID, SessionID := s.ID,
        Session := { Send := σ0.byteChans.length, Recv := σ0.byteChans.length + 1 },
        Client := { Send := σ0.byteChans.length + 1, Recv := σ0.byteChans.length } } := by
    refine ⟨?_, ?_, ?_, rfl, rfl⟩
    · simp only [chanOpen, get_two_new_snd, Bool.not_false]
    · simp only [chanOpen, get_two_new_fst, Bool.not_false]
    · simp
  obtain ⟨cha, chb, heap1, heap3, _, _, _, _, _, _, _, _, _, hclose, h3a, h3b, _⟩ :=
    tunnels_Close_live x _ tunnelID _ tunnelClose data
      (show tunnels.Get
        { σ0 with
          byteChans := σ0.byteChans ++ [⟨false, []⟩, ⟨false, []⟩]
          tunnels := mapSet σ0.tunnels tunnelID
            { ID := tunnelID, SessionID := s.ID,
              Session := { Send := σ0.byteChans.length, Recv := σ0.byteChans.length + 1 },
              Client := { Send := σ0.byteChans.length + 1, Recv := σ0.byteChans.length } } }
        tunnelID = some _ from mapGet_mapSet_self _ _ _) hm1 hm2 hlive
  refine ⟨_, _, _, tunnels_Create_eq σ0 sessionID tunnelID s hGet, hlive.2.1, hlive.1, hclose,
    ?_, ?_⟩
  · simp only [chanClosed, h3b]
  · simp only [chanClosed, h3a]

theorem closeTeardown_no_error (t : Tunnel) (tunnelID : Nat) (σ σ' : World) (err : GoError) :
    tunnels.closeTeardown t tunnelID σ ≠ .ok (some err) σ' := by
  unfold tunnels.closeTeardown
  split
  · simp
  · simp
  · split <;> simp

theorem tunnels_Close_error_unchanged (x : Externals) (σ σ' : World) (tunnelID : Nat)
    (receiver : Bool) (err : GoError)
    (h : tunnels.Close x tunnelID receiver σ = .ok (some err) σ') :
    σ' = σ ∧ (err = .ErrInvalidTunnelID → tunnels.Get σ tunnelID = none) := by
  unfold tunnels.Close at h
  unfold tunnels.Get
  cases hg : mapGet σ.tunnels tunnelID with
  | none =>
    rw [hg] at h
    simp only [Outcome.ok.injEq] at h
    exact ⟨h.2.symm, fun _ => rfl⟩
  | some t =>
    rw [hg] at h
    simp only at h
    cases h1 : x.marshalTunnelClose { TunnelID := t.ID, SessionID := t.SessionID } with
    | error e =>
      rw [h1] at h
      simp only [Outcome.ok.injEq, Option.some.injEq] at h
      refine ⟨h.2.symm, fun he => ?_⟩
      rw [he] at h
      exact absurd h.1 (by simp)
    | ok tunnelClose =>
      rw [h1] at h
      simp only at h
      cases h2 : x.marshalEnvelope
          { ID := 0, Type_ := x.MsgTunnelClose, Data := tunnelClose } with
      | error e =>
        rw [h2] at h
        simp only [Outcome.ok.injEq, Option.some.injEq] at h
        refine ⟨h.2.symm, fun he => ?_⟩
        rw [he] at h
        exact absurd h.1 (by simp)
      | ok data =>
        rw [h2] at h
        simp only at h
        cases h3 : chanSend σ.byteChans t.Session.Send data receiver with
        | blocked => rw [h3] at h; simp at h
        | panic => rw [h3] at h; simp at h
        | ok heap1 =>
          rw [h3] at h
          exact absurd h (closeTeardown_no_error _ _ _ _ _)

theorem tunnels_Close_envChans (x : Externals) (σ : World) (tunnelID : Nat)
    (receiver : Bool) :
    (tunnels.Close x tunnelID receiver σ).world.envChans = σ.envChans ∧
    (tunnels.Close x tunnelID receiver σ).world.sessions = σ.sessions := by
  unfold tunnels.Close
  split
  · exact ⟨rfl, rfl⟩
  · split
    · exact ⟨rfl, rfl⟩
    · split
      · exact ⟨rfl, rfl⟩
      · split
        · exact ⟨rfl, rfl⟩
        · exact ⟨rfl, rfl⟩
        · unfold tunnels.closeTeardown
          split
          · exact ⟨rfl, rfl⟩
          · exact ⟨rfl, rfl⟩
          · split <;> exact ⟨rfl, rfl⟩

/-! ### The invariants hold at process start and every step keeps them -/

theorem sessionsKeyed_init : sessionsKeyed World.init := by
  intro p hp
  simp [World.init] at hp

theorem sessionsKeyed_Add (x : Externals) (σ : World) (s : Session) (h : sessionsKeyed σ) :
    sessionsKeyed (sessions.Add x (some s) σ).world := by
  intro p hp
  simp only [sessions.Add, Outcome.world, EventBroker.Publish, mapSet, List.mem_cons] at hp
  rcases hp with hp | hp
  · rw [hp]
  · exact h p ((mem_mapDelete _ _ _).1 hp).1

theorem sessionsKeyed_Remove (x : Externals) (σ : World) (k : Nat) (h : sessionsKeyed σ) :
    sessionsKeyed (sessions.Remove x k σ).world := by
  intro p hp
  simp only [sessions.Remove, Outcome.world, EventBroker.Publish] at hp
  exact h p ((mem_mapDelete _ _ _).1 hp).1

theorem sessionsKeyed_of_eq (σ σ' : World) (h : sessionsKeyed σ)
    (hs : σ'.sessions = σ.sessions) : sessionsKeyed σ' := by
  unfold sessionsKeyed at h ⊢
  rw [hs]; exact h

theorem tunnelLive_congr (heap heap' : List (Chan ByteSlice)) (t : Tunnel)
    (h : tunnelLive heap t)
    (hs : heap'[t.Client.Send]? = heap[t.Client.Send]?)
    (hr : heap'[t.Client.Recv]? = heap[t.Client.Recv]?) : tunnelLive heap' t := by
  obtain ⟨h1, h2, h3⟩ := h
  refine ⟨?_, ?_, h3⟩
  · unfold chanOpen at h1 ⊢
    rw [hs]; exact h1
  · unfold chanOpen at h2 ⊢
    rw [hr]; exact h2

theorem tunnelLive_chans_lt (heap : List (Chan ByteSlice)) (t : Tunnel)
    (h : tunnelLive heap t) : ∀ c ∈ t.chans, c < heap.length := by
  obtain ⟨h1, h2, _, h4, h5⟩ := h
  have ha := chanOpen_lt _ _ h1
  have hb := chanOpen_lt _ _ h2
  intro c hc
  simp only [Tunnel.chans, List.mem_cons, List.mem_singleton, List.not_mem_nil, or_false] at hc
  rcases hc with hc | hc | hc | hc
  · rw [hc, h4]; exact hb
  · rw [hc, h5]; exact ha
  · rw [hc]; exact ha
  · rw [hc]; exact hb

theorem tunnelLive_append (heap extra : List (Chan ByteSlice)) (t : Tunnel)
    (h : tunnelLive heap t) : tunnelLive (heap ++ extra) t :=
  tunnelLive_congr heap (heap ++ extra) t h
    (List.getElem?_append_left (chanOpen_lt _ _ h.1))
    (List.getElem?_append_left (chanOpen_lt _ _ h.2.1))

theorem tunnelsLive_init : tunnelsLive World.init := by
  constructor
  · intro p hp
    simp [World.init] at hp
  · intro p hp
    simp [World.init] at hp

theorem tunnelsLive_entry (σ : World) (tunnelID : Nat) (t : Tunnel) (hLive : tunnelsLive σ)
    (hReg : tunnels.Get σ tunnelID = some t) :
    t.ID = tunnelID ∧ tunnelLive σ.byteChans t :=
  hLive.1 (tunnelID, t) (mem_of_mapGet _ _ _ hReg)

theorem tunnelsLive_apart (σ : World) (k j : Nat) (t u : Tunnel) (hLive : tunnelsLive σ)
    (ht : tunnels.Get σ k = some t) (hu : tunnels.Get σ j = some u) (hne : j ≠ k) :
    ∀ c ∈ u.chans, c ≠ t.Client.Send ∧ c ≠ t.Client.Recv := by
  intro c hc
  have h := hLive.2 (j, u) (mem_of_mapGet _ _ _ hu) (k, t) (mem_of_mapGet _ _ _ ht) hne c hc
  simp only [Tunnel.chans, List.mem_cons, List.mem_singleton, not_or, List.not_mem_nil,
    or_false] at h
  exact ⟨h.2.2.1, h.2.2.2⟩

theorem tunnelsLive_Create (σ : World) (sessionID tunnelID : Nat) (h : tunnelsLive σ) :
    tunnelsLive (tunnels.Create sessionID tunnelID σ).world := by
  obtain ⟨hent, hapart⟩ := h
  cases hGet : sessions.Get σ sessionID with
  | none =>
    have hw : (tunnels.Create sessionID tunnelID σ).world
        = { σ with byteChans := σ.byteChans ++ [⟨false, []⟩, ⟨false, []⟩] } := by
      simp [tunnels.Create, hGet, makeChan, Outcome.world]
    rw [hw]
    exact ⟨fun p hp => ⟨(hent p hp).1, tunnelLive_append _ _ _ (hent p hp).2⟩, hapart⟩
  | some s =>
    rw [tunnels_Create_eq σ sessionID tunnelID s hGet]
    have hnew : tunnelLive (σ.byteChans ++ [⟨false, []⟩, ⟨false, []⟩])
        { ID := tunnelID, SessionID := s.ID,
          Session := { Send := σ.byteChans.length, Recv := σ.byteChans.length + 1 },
          Client := { Send := σ.byteChans.length + 1, Recv := σ.byteChans.length } } := by
      refine ⟨?_, ?_, ?_, rfl, rfl⟩
      · simp only [chanOpen, get_two_new_snd, Bool.not_false]
      · simp only [chanOpen, get_two_new_fst, Bool.not_false]
      · simp
    have hfresh : ∀ q ∈ σ.tunnels, ∀ c ∈ q.2.chans,
        c ≠ σ.byteChans.length ∧ c ≠ σ.byteChans.length + 1 := by
      intro q hq c hc
      have := tunnelLive_chans_lt _ _ (hent q hq).2 c hc
      omega
    constructor
    · intro p hp
      simp only [Outcome.world, mapSet, List.mem_cons] at hp
      rcases hp with hp | hp
      · rw [hp]
        exact ⟨rfl, hnew⟩
      · have hp' := ((mem_mapDelete _ _ _).1 hp).1
        exact ⟨(hent p hp').1, tunnelLive_append _ _ _ (hent p hp').2⟩
    · intro p hp q hq hne c hc
      simp only [Outcome.world, mapSet, List.mem_cons] at hp hq
      rcases hp with hp | hp
      · rcases hq with hq | hq
        · rw [hp, hq] at hne
          exact absurd rfl hne
        · have hq' := ((mem_mapDelete _ _ _).1 hq).1
          intro hcq
          have hf := hfresh q hq' c hcq
          rw [hp] at hc
          simp only [Tunnel.chans, List.mem_cons, List.mem_singleton, List.not_mem_nil,
            or_false] at hc
          omega
      · have hp' := ((mem_mapDelete _ _ _).1 hp).1
        rcases hq with hq | hq
        · have hf := hfresh p hp' c hc
          rw [hq]
          simp only [Tunnel.chans, List.mem_cons, List.mem_singleton, List.not_mem_nil,
            or_false, not_or]
          omega
        · exact hapart p hp' q ((mem_mapDelete _ _ _).1 hq).1 hne c hc

theorem tunnelsLive_Close (x : Externals) (σ : World) (tunnelID : Nat)
    (receiver : Bool) (h : tunnelsLive σ) :
    tunnelsLive (tunnels.Close x tunnelID receiver σ).world := by
  cases hReg : tunnels.Get σ tunnelID with
  | none =>
    have hw : tunnels.Close x tunnelID receiver σ = .ok (some .ErrInvalidTunnelID) σ := by
      unfold tunnels.Get at hReg
      simp only [tunnels.Close, hReg]
    rw [hw]; exact h
  | some t =>
    cases hm1 : x.marshalTunnelClose { TunnelID := t.ID, SessionID := t.SessionID } with
    | error e =>
      have hw : tunnels.Close x tunnelID receiver σ = .ok (some (.proto e)) σ := by
        unfold tunnels.Get at hReg
        simp only [tunnels.Close, hReg, hm1]
      rw [hw]; exact h
    | ok tunnelClose =>
      cases hm2 : x.marshalEnvelope
          { ID := 0, Type_ := x.MsgTunnelClose, Data := tunnelClose } with
      | error e =>
        have hw : tunnels.Close x tunnelID receiver σ = .ok (some (.proto e)) σ := by
          unfold tunnels.Get at hReg
          simp only [tunnels.Close, hReg, hm1, hm2]
        rw [hw]; exact h
      | ok data =>
        obtain ⟨_, hl⟩ := tunnelsLive_entry σ tunnelID t h hReg
        cases receiver with
        | false =>
          rw [tunnels_Close_blocked x σ tunnelID t tunnelClose data hReg hm1 hm2 hl]
          exact h
        | true =>
        obtain ⟨cha, chb, heap1, heap3, _, _, _, _, _, _, _, _, _, hclose, _, _, h3o⟩ :=
          tunnels_Close_live x σ tunnelID t tunnelClose data hReg hm1 hm2 hl
        rw [hclose]
        obtain ⟨hent, hapart⟩ := h
        have hmem : (tunnelID, t) ∈ σ.tunnels := mem_of_mapGet _ _ _ hReg
        constructor
        · intro p hp
          obtain ⟨hp', hpk⟩ := (mem_mapDelete _ _ _).1 hp
          refine ⟨(hent p hp').1, ?_⟩
          have hd := hapart p hp' (tunnelID, t) hmem hpk
          have hcs := hd p.2.Client.Send (by simp [Tunnel.chans])
          have hcr := hd p.2.Client.Recv (by simp [Tunnel.chans])
          simp only [Tunnel.chans, List.mem_cons, List.mem_singleton, List.not_mem_nil,
            or_false, not_or] at hcs hcr
          exact tunnelLive_congr _ _ _ (hent p hp').2
            (h3o _ hcs.2.2.1 hcs.2.2.2) (h3o _ hcr.2.2.1 hcr.2.2.2)
        · intro p hp q hq hne c hc
          exact hapart p ((mem_mapDelete _ _ _).1 hp).1 q ((mem_mapDelete _ _ _).1 hq).1 hne c hc

theorem tunnelsLive_of_eq (σ σ' : World) (h : tunnelsLive σ)
    (ht : σ'.tunnels = σ.tunnels) (hb : σ'.byteChans = σ.byteChans) : tunnelsLive σ' := by
  unfold tunnelsLive at h ⊢
  rw [ht, hb]; exact h

theorem step_invariants (x : Externals) (c : Call) (σ : World)
    (hk : sessionsKeyed σ) (hl : tunnelsLive σ) :
    sessionsKeyed (step x c σ) ∧ tunnelsLive (step x c σ) := by
  cases c with
  | add session =>
    cases session with
    | none => exact ⟨hk, hl⟩
    | some s => exact ⟨sessionsKeyed_Add x σ s hk, tunnelsLive_of_eq σ _ hl rfl rfl⟩
  | remove sessionID =>
    exact ⟨sessionsKeyed_Remove x σ sessionID hk, tunnelsLive_of_eq σ _ hl rfl rfl⟩
  | nextSessionID => exact ⟨hk, hl⟩
  | request s reqID msgType timeout data receiver arrival =>
    obtain ⟨h1, h2, h3⟩ :=
      Session_Request_frame σ s reqID msgType timeout data receiver arrival
    exact ⟨sessionsKeyed_of_eq σ _ hk h1, tunnelsLive_of_eq σ _ hl h2 h3⟩
  | create sessionID tunnelID =>
    exact ⟨sessionsKeyed_of_eq σ _ hk (tunnels_Create_sessions σ sessionID tunnelID),
      tunnelsLive_Create σ sessionID tunnelID hl⟩
  | close tunnelID receiver =>
    exact ⟨sessionsKeyed_of_eq σ _ hk (tunnels_Close_envChans x σ tunnelID receiver).2,
      tunnelsLive_Close x σ tunnelID receiver hl⟩
  | makeSendChan => exact ⟨hk, hl⟩
  | makeRespTable => exact ⟨hk, hl⟩

theorem run_invariants (x : Externals) (calls : List Call) :
    ∀ σ : World, sessionsKeyed σ → tunnelsLive σ →
      sessionsKeyed (run x calls σ) ∧ tunnelsLive (run x calls σ) := by
  induction calls with
  | nil => intro σ hk hl; exact ⟨hk, hl⟩
  | cons c rest ih =>
    intro σ hk hl
    obtain ⟨hk1, hl1⟩ := step_invariants x c σ hk hl
    exact ih _ hk1 hl1

theorem reachable_invariants (x : Externals) (calls : List Call) :
    sessionsKeyed (run x calls World.init) ∧ tunnelsLive (run x calls World.init) :=
  run_invariants x calls World.init sessionsKeyed_init tunnelsLive_init

theorem step_absent (x : Externals) (c : Call) (σ : World) (k : Nat)
    (h : sessions.Get σ k = none) (hadd : ∀ s, c = Call.add (some s) → s.ID ≠ k) :
    sessions.Get (step x c σ) k = none := by
  unfold sessions.Get at h ⊢
  cases c with
  | add session =>
    cases session with
    | none => exact h
    | some s =>
      have hs : k ≠ s.ID := fun e => hadd s rfl e.symm
      simp only [step, sessions.Add, Outcome.world, EventBroker.Publish]
      rw [mapGet_mapSet_of_ne _ _ _ _ hs]
      exact h
  | remove j =>
    simp only [step, sessions.Remove, Outcome.world, EventBroker.Publish]
    by_cases hj : k = j
    · rw [hj]; exact mapGet_mapDelete_self _ _
    · rw [mapGet_mapDelete_of_ne _ _ _ hj]; exact h
  | nextSessionID => exact h
  | request s reqID msgType timeout data receiver arrival =>
    simp only [step,
      (Session_Request_frame σ s reqID msgType timeout data receiver arrival).1]
    exact h
  | create sessionID tunnelID =>
    simp only [step, tunnels_Create_sessions σ sessionID tunnelID]
    exact h
  | close tunnelID receiver =>
    simp only [step, (tunnels_Close_envChans x σ tunnelID receiver).2]
    exact h
  | makeSendChan => exact h
  | makeRespTable => exact h

theorem run_absent (x : Externals) (calls : List Call) (k : Nat) :
    ∀ σ : World, sessions.Get σ k = none →
      (∀ s, Call.add (some s) ∈ calls → s.ID ≠ k) →
      sessions.Get (run x calls σ) k = none := by
  induction calls with
  | nil => intro σ h _; exact h
  | cons c rest ih =>
    intro σ h hadd
    refine ih _ (step_absent x c σ k h ?_) (fun s hs => hadd s (List.mem_cons_of_mem _ hs))
    intro s hc
    exact hadd s (hc ▸ List.mem_cons_self _ _)

/-! ### Session.Request -/

/-- C1 (amended): for a session whose `Send` channel is open and whose pending table
exists and has no entry for the fresh correlation id, and for every message type and
payload. When a receiver takes the envelope from `Send`: if a reply envelope is
delivered on the channel that the pending table holds for the correlation id while the
call waits, that is the channel `Request` made and waits on, and `Request` returns the
envelope's `Data` and no error; if nothing arrives on that channel before the timer
fires, `Request` returns no data and the error "timeout". On both paths exactly one envelope
`{ID: reqID, Type: msgType, Data: data}` was pushed on the session's `Send` channel,
the other channels are what they were, the pending table has no entry for the
correlation id and every other entry of it is what it was. When no receiver takes the
envelope, the call never returns: nothing was pushed and the correlation id stays
registered. -/
theorem Session_Request_spec (σ : World) (s : Session) (reqID msgType : Nat)
    (timeout : Int) (data : ByteSlice)
    (hSend : chanOpen σ.envChans s.Send = true)
    (hTbl : s.Resp < σ.respTables.length)
    (hFresh : respGet σ s.Resp reqID = none) :
    (∀ (e : Envelope) (arrival : Arrival),
      (∀ w c, respGet w s.Resp reqID = some c → arrival w = some (c, some e)) → ∃ σ',
      Session.Request s reqID msgType timeout data true arrival σ
        = .ok (e.Data, none) σ' ∧
      chanHistory σ'.envChans σ.envChans.length = [some e] ∧
      chanHistory σ'.envChans s.Send
        = chanHistory σ.envChans s.Send ++ [some { ID := reqID, Type_ := msgType, Data := data }] ∧
      (∀ c, c ≠ s.Send → c < σ.envChans.length → σ'.envChans[c]? = σ.envChans[c]?) ∧
      respGet σ' s.Resp reqID = none ∧
      (∀ k, respGet σ' s.Resp k = respGet σ s.Resp k)) ∧
    (∀ arrival : Arrival,
      (∀ w c v, arrival w = some (c, v) → c ≠ σ.envChans.length) → ∃ σ',
      Session.Request s reqID msgType timeout data true arrival σ
        = .ok (none, some .timeout) σ' ∧
      GoError.Error .timeout = "timeout" ∧
      chanHistory σ'.envChans s.Send
        = chanHistory σ.envChans s.Send ++ [some { ID := reqID, Type_ := msgType, Data := data }] ∧
      (∀ c, c ≠ s.Send → c < σ.envChans.length → σ'.envChans[c]? = σ.envChans[c]?) ∧
      respGet σ' s.Resp reqID = none ∧
      (∀ k, respGet σ' s.Resp k = respGet σ s.Resp k)) ∧
    (∀ arrival : Arrival, ∃ σb,
      Session.Request s reqID msgType timeout data false arrival σ = .blocked σb ∧
      chanHistory σb.envChans s.Send = chanHistory σ.envChans s.Send ∧
      respGet σb s.Resp reqID = some σ.envChans.length) := by
  obtain ⟨ch, hch, hopen⟩ := (chanOpen_iff _ _).1 hSend
  obtain ⟨m, hm⟩ : ∃ m, σ.respTables[s.Resp]? = some m :=
    ⟨_, List.getElem?_eq_getElem hTbl⟩
  have hlt : s.Send < σ.envChans.length := (List.getElem?_eq_some.1 hch).1
  have hall : ∀ σ' : World, respGet σ' s.Resp reqID = none →
      (∀ k, k ≠ reqID → respGet σ' s.Resp k = respGet σ s.Resp k) →
      ∀ k, respGet σ' s.Resp k = respGet σ s.Resp k := by
    intro σ' h1 h2 k
    by_cases hk : k = reqID
    · rw [hk, h1, hFresh]
    · exact h2 k hk
  obtain ⟨σw, henv, htbl, _, _, _, hblocked, hwait⟩ :=
    Session_Request_wait σ s reqID msgType timeout data m ch hm hch hopen
  have hreg : respGet σw s.Resp reqID = some σ.envChans.length := by
    have hs : (σ.respTables.set s.Resp (mapSet m reqID σ.envChans.length))[s.Resp]?
        = some (mapSet m reqID σ.envChans.length) := by
      simp [List.getElem?_set, hTbl]
    simp only [respGet, htbl, hs]
    exact mapGet_mapSet_self _ _ _
  refine ⟨?_, ?_, ?_⟩
  · intro e arrival hdeliver
    have harr : arrival σw = some (σ.envChans.length, some e) := hdeliver σw _ hreg
    have heq := hwait arrival
    rw [harr] at heq
    simp only [if_true] at heq
    obtain ⟨h1, h2, h3, h4⟩ := Session_Request_done σ
      { σw with envChans := chanDeliver σw.envChans σ.envChans.length (some e) }
      s reqID msgType data m ch hm hch htbl (Or.inr ⟨some e, by rw [henv]⟩)
    refine ⟨_, heq, ?_, h1, h2, h3, hall _ h3 h4⟩
    rw [(respDelete_fields _ s.Resp reqID).1]
    have hnew : σw.envChans[σ.envChans.length]? = some ⟨false, []⟩ := by
      rw [henv, List.getElem?_set_ne (Nat.ne_of_lt hlt)]
      exact List.getElem?_concat_length _ _
    have hlen : σ.envChans.length < σw.envChans.length :=
      (List.getElem?_eq_some.1 hnew).1
    simp [chanHistory, chanDeliver, hnew, List.getElem?_set, hlen]
  · intro arrival harr
    have heq := hwait arrival
    obtain ⟨h1, h2, h3, h4⟩ := Session_Request_done σ σw
      s reqID msgType data m ch hm hch htbl (Or.inl henv)
    have hres : Session.Request s reqID msgType timeout data true arrival σ
        = .ok (none, some .timeout) (respDelete σw s.Resp reqID) := by
      rw [heq]
      cases ha : arrival σw with
      | none => rfl
      | some p =>
        obtain ⟨c, v⟩ := p
        simp only [if_neg (harr σw c v ha)]
    exact ⟨_, hres, rfl, h1, h2, h3, hall _ h3 h4⟩
  · intro arrival
    refine ⟨_, hblocked arrival, ?_, ?_⟩
    · have hold : (σ.envChans ++ [(⟨false, []⟩ : Chan (Option Envelope))])[s.Send]?
          = σ.envChans[s.Send]? := List.getElem?_append_left hlt
      simp only [chanHistory, hold]
    · exact hreg

/-- Witness of C1 (amended): a request on the sample session, whose send channel is open
and whose pending table is empty, answered by the read pump and timed out. -/
theorem Session_Request_spec_witness :
    chanOpen sampleWorld.envChans sampleSession.Send = true ∧
    sampleSession.Resp < sampleWorld.respTables.length ∧
    respGet sampleWorld sampleSession.Resp 42 = none ∧
    (∃ σ', Session.Request sampleSession 42 5 1000 (some [1, 2]) true
      (readPump sampleSession (some { ID := 42, Type_ := 5, Data := some [3] })) sampleWorld
        = .ok (some [3], none) σ' ∧ respGet σ' sampleSession.Resp 42 = none) ∧
    (∃ σ', Session.Request sampleSession 42 5 1000 (some [1, 2]) true
      (readPump sampleSession none) sampleWorld
        = .ok (none, some .timeout) σ' ∧ respGet σ' sampleSession.Resp 42 = none) := by
  have h := Session_Request_spec sampleWorld sampleSession 42 5 1000 (some [1, 2])
    (by decide) (by decide) (by decide)
  refine ⟨by decide, by decide, by decide, ?_, ?_⟩
  · obtain ⟨σ', h1, _, _, _, h5, _⟩ := h.1 { ID := 42, Type_ := 5, Data := some [3] }
      (readPump sampleSession (some { ID := 42, Type_ := 5, Data := some [3] }))
      (fun w c hw => by simp only [readPump, hw])
    exact ⟨σ', h1, h5⟩
  · obtain ⟨σ', h1, _, _, _, h5, _⟩ :=
      h.2.1 (readPump sampleSession none) (fun w c v hw => by simp [readPump] at hw)
    exact ⟨σ', h1, h5⟩

/-- C1 as stated fails: the sample session has an open `Send` channel and an empty
pending table, but no goroutine receives from `Send`. `Request` never returns: no
envelope was pushed on `Send`, and the correlation id 42 is still in the pending
table. -/
theorem Session_Request_counterexample :
    chanOpen sampleWorld.envChans sampleSession.Send = true ∧
    respGet sampleWorld sampleSession.Resp 42 = none ∧
    Session.Request sampleSession 42 5 1000 (some [1, 2]) false
      (readPump sampleSession (some { ID := 42, Type_ := 5, Data := some [3] })) sampleWorld
      = .blocked (Session.Request sampleSession 42 5 1000 (some [1, 2]) false
          (readPump sampleSession (some { ID := 42, Type_ := 5, Data := some [3] }))
          sampleWorld).world ∧
    chanHistory (Session.Request sampleSession 42 5 1000 (some [1, 2]) false
      (readPump sampleSession (some { ID := 42, Type_ := 5, Data := some [3] }))
      sampleWorld).world.envChans sampleSession.Send = [] ∧
    respGet (Session.Request sampleSession 42 5 1000 (some [1, 2]) false
      (readPump sampleSession (some { ID := 42, Type_ := 5, Data := some [3] }))
      sampleWorld).world sampleSession.Resp 42 = some 1 := by
  decide

/-! ### Sessions.Add, Sessions.Get, Sessions.Remove -/

/-- C2: `Sessions.Add(s)` returns `s`; afterwards `Get(s.ID)` is `s` whatever was stored
under that id before, `Get` of every other id is what it was, and exactly one
session-opened event carrying `s` has been published. `Get` of an id that is absent and
is not added in the run that follows stays absent (so, from process start, an id never
added is absent), and `Get` of an id just removed is absent. -/
theorem sessions_Add_Get_spec (x : Externals) (σ : World) (s : Session) :
    ∃ σ', sessions.Add x (some s) σ = .ok (some s) σ' ∧
      sessions.Get σ' s.ID = some s ∧
      (∀ k, k ≠ s.ID → sessions.Get σ' k = sessions.Get σ k) ∧
      σ'.published = σ.published ++ [{ EventType := x.SessionOpenedEvent, Session := some s }] ∧
      σ'.tunnels = σ.tunnels ∧
      (∀ k, sessions.Get World.init k = none) ∧
      (∀ (calls : List Call) (σ0 : World) (k : Nat),
        sessions.Get σ0 k = none →
        (∀ s', Call.add (some s') ∈ calls → s'.ID ≠ k) →
        sessions.Get (run x calls σ0) k = none) ∧
      (∀ k, sessions.Get (sessions.Remove x k σ).world k = none) := by
  refine ⟨_, rfl, ?_, ?_, rfl, rfl, fun _ => rfl, ?_, ?_⟩
  · exact mapGet_mapSet_self _ _ _
  · intro k hk
    exact mapGet_mapSet_of_ne _ _ _ _ hk
  · intro calls σ0 k h hadd
    exact run_absent x calls k σ0 h hadd
  · intro k
    exact mapGet_mapDelete_self _ _

/-- Witness of C2: a session added to the empty registry is found under its id, another
id is still absent, and an id that a run never adds is absent after it. -/
theorem sessions_Add_Get_spec_witness :
    sessions.Get (sessions.Add sampleExternals (some sampleSession) World.init).world 1
      = some sampleSession ∧
    sessions.Get (sessions.Add sampleExternals (some sampleSession) World.init).world 2
      = none ∧
    sessions.Get (run sampleExternals
      [.add (some sampleSession), .create 1 7, .close 7 true, .remove 1] World.init) 2 = none := by
  obtain ⟨σ', h1, h2, h3, _, _, _, h7, _⟩ :=
    sessions_Add_Get_spec sampleExternals World.init sampleSession
  rw [h1]
  refine ⟨h2, h3 2 (by decide), h7 _ World.init 2 (by decide) ?_⟩
  intro s' hs
  simp only [List.mem_cons, Call.add.injEq, Option.some.injEq, reduceCtorEq,
    List.not_mem_nil, or_false] at hs
  rw [hs]
  decide

/-- C3: `Sessions.Remove(id)` returns; afterwards `Get(id)` is absent, every other entry
is what it was, and exactly one session-closed event has been published, carrying what
was stored under `id` before the call (nil when `id` was unknown). `Add(s)` followed at
once by `Remove(s.ID)` publishes exactly two events, opened then closed, both carrying
`s`. -/
theorem sessions_Remove_spec (x : Externals) (σ : World) (sessionID : Nat) :
    ∃ σ', sessions.Remove x sessionID σ = .ok () σ' ∧
      sessions.Get σ' sessionID = none ∧
      (∀ k, k ≠ sessionID → sessions.Get σ' k = sessions.Get σ k) ∧
      σ'.published = σ.published ++
        [{ EventType := x.SessionClosedEvent, Session := sessions.Get σ sessionID }] ∧
      (∀ s : Session, ∃ σ1 σ2,
        sessions.Add x (some s) σ = .ok (some s) σ1 ∧
        sessions.Remove x s.ID σ1 = .ok () σ2 ∧
        σ2.published = σ.published ++
          [{ EventType := x.SessionOpenedEvent, Session := some s },
           { EventType := x.SessionClosedEvent, Session := some s }]) := by
  refine ⟨_, rfl, ?_, ?_, rfl, ?_⟩
  · exact mapGet_mapDelete_self _ _
  · intro k hk
    exact mapGet_mapDelete_of_ne _ _ _ hk
  · intro s
    refine ⟨_, _, rfl, rfl, ?_⟩
    simp [EventBroker.Publish, mapGet_mapSet_self]

/-- Witness of C3: removing the sample session after adding it. -/
theorem sessions_Remove_spec_witness :
    sessions.Get (sessions.Remove sampleExternals 1
      (sessions.Add sampleExternals (some sampleSession) World.init).world).world 1 = none ∧
    sessions.Get (sessions.Remove sampleExternals 1
      (sessions.Add sampleExternals (some sampleSession) World.init).world).world 2 = none := by
  obtain ⟨σ', h1, h2, h3, _⟩ := sessions_Remove_spec sampleExternals
    (sessions.Add sampleExternals (some sampleSession) World.init).world 1
  rw [h1]
  exact ⟨h2, (h3 2 (by decide)).trans (by decide)⟩

/-! ### Tunnels.Create -/

/-- C4: for a registry whose sessions are stored under their own ids and a `sessionID`
that `Sessions.Get` finds, `Tunnels.Create` returns a tunnel with the drawn id and
`SessionID = sessionID`; its two channels are distinct and open; `Client.Send` is the
channel `Session.Recv` and `Client.Recv` is the channel `Session.Send`, so a value sent
on one side and taken by a receiver is the value read on the other, also a zero-length
one; afterwards
`Tunnels.Get(tunnel.ID)` is that tunnel and the session registry is what it was. -/
theorem tunnels_Create_spec (σ : World) (sessionID tunnelID : Nat) (s : Session)
    (hKeyed : sessionsKeyed σ) (hGet : sessions.Get σ sessionID = some s) :
    ∃ t σ', tunnels.Create sessionID tunnelID σ = .ok t σ' ∧
      t.ID = tunnelID ∧ t.SessionID = sessionID ∧
      t.Client.Send ≠ t.Client.Recv ∧
      chanOpen σ'.byteChans t.Client.Send = true ∧
      chanOpen σ'.byteChans t.Client.Recv = true ∧
      t.Client.Send = t.Session.Recv ∧ t.Client.Recv = t.Session.Send ∧
      (∀ v : ByteSlice, ∃ heap, chanSend σ'.byteChans t.Client.Send v true = .ok heap ∧
        chanHistory heap t.Session.Recv = [v]) ∧
      (∀ v : ByteSlice, ∃ heap, chanSend σ'.byteChans t.Session.Send v true = .ok heap ∧
        chanHistory heap t.Client.Recv = [v]) ∧
      tunnels.Get σ' t.ID = some t ∧
      σ'.sessions = σ.sessions ∧
      (∀ k, sessions.Get σ' k = sessions.Get σ k) := by
  have hid : s.ID = sessionID := hKeyed (sessionID, s) (mem_of_mapGet _ _ _ hGet)
  refine ⟨_, _, tunnels_Create_eq σ sessionID tunnelID s hGet, rfl, hid, ?_, ?_, ?_, rfl, rfl,
    ?_, ?_, ?_, rfl, fun _ => rfl⟩
  · simp
  · simp only [chanOpen, get_two_new_snd, Bool.not_false]
  · simp only [chanOpen, get_two_new_fst, Bool.not_false]
  · intro v
    refine ⟨_, chanSend_of_get _ _ v _ (get_two_new_snd _ _ _) rfl, ?_⟩
    simp only [chanHistory, get_set_self _ _ _ _ (get_two_new_snd σ.byteChans _ _),
      List.nil_append]
  · intro v
    refine ⟨_, chanSend_of_get _ _ v _ (get_two_new_fst _ _ _) rfl, ?_⟩
    simp only [chanHistory, get_set_self _ _ _ _ (get_two_new_fst σ.byteChans _ _),
      List.nil_append]
  · exact mapGet_mapSet_self _ _ _

/-- Witness of C4: `Create(1)` in the sample state, where session 1 is registered; a
zero-length value sent on the client side is what the session side reads. -/
theorem tunnels_Create_spec_witness :
    sessionsKeyed sampleWorld ∧ sessions.Get sampleWorld 1 = some sampleSession ∧
    ∃ t σ', tunnels.Create 1 7 sampleWorld = .ok t σ' ∧ t.SessionID = 1 ∧
      t.Client.Send ≠ t.Client.Recv ∧ tunnels.Get σ' t.ID = some t ∧
      ∃ heap, chanSend σ'.byteChans t.Client.Send (some []) true = .ok heap ∧
        chanHistory heap t.Session.Recv = [some []] := by
  refine ⟨by decide, by decide, ?_⟩
  obtain ⟨t, σ', h1, _, h3, h4, _, _, _, _, h9, _, h11, _⟩ :=
    tunnels_Create_spec sampleWorld 1 7 sampleSession (by decide) (by decide)
  exact ⟨t, σ', h1, h3, h4, h11, h9 (some [])⟩

/-! ### Tunnels.Close -/

/-- C5 (amended): in a registry kept by `Create` and `Close`, with `tunnelID` registered
and both serializations succeeding. When a receiver takes the control message from
`tunnel.Session.Send`, `Tunnels.Close(tunnelID)` returns no error; afterwards
`Tunnels.Get(tunnelID)` is absent, `Client.Send` and `Client.Recv` of the tunnel are
closed, every other registered tunnel is still registered and its channels are what
they were, and a second `Close(tunnelID)` returns the invalid-tunnel-id error. When no
receiver takes the control message, `Close` never returns and the state is what it
was: the tunnel is still registered and no channel is closed. -/
theorem tunnels_Close_registered_spec (x : Externals) (σ : World) (tunnelID : Nat)
    (t : Tunnel) (tunnelClose data : ByteSlice)
    (hLive : tunnelsLive σ)
    (hReg : tunnels.Get σ tunnelID = some t)
    (hm1 : x.marshalTunnelClose { TunnelID := t.ID, SessionID := t.SessionID } = .ok tunnelClose)
    (hm2 : x.marshalEnvelope { ID := 0, Type_ := x.MsgTunnelClose, Data := tunnelClose }
      = .ok data) :
    ∃ σ', tunnels.Close x tunnelID true σ = .ok none σ' ∧
      tunnels.Get σ' tunnelID = none ∧
      chanClosed σ'.byteChans t.Client.Send = true ∧
      chanClosed σ'.byteChans t.Client.Recv = true ∧
      (∀ k u, k ≠ tunnelID → tunnels.Get σ k = some u →
        tunnels.Get σ' k = some u ∧ ∀ c ∈ u.chans, σ'.byteChans[c]? = σ.byteChans[c]?) ∧
      (∀ receiver, tunnels.Close x tunnelID receiver σ'
        = .ok (some .ErrInvalidTunnelID) σ') ∧
      tunnels.Close x tunnelID false σ = .blocked σ := by
  obtain ⟨_, hl⟩ := tunnelsLive_entry σ tunnelID t hLive hReg
  obtain ⟨cha, chb, heap1, heap3, _, _, _, _, _, _, _, _, _, hclose, h3a, h3b, h3o⟩ :=
    tunnels_Close_live x σ tunnelID t tunnelClose data hReg hm1 hm2 hl
  have hgone : mapGet (mapDelete σ.tunnels tunnelID) tunnelID = none :=
    mapGet_mapDelete_self _ _
  refine ⟨_, hclose, hgone, ?_, ?_, ?_, ?_,
    tunnels_Close_blocked x σ tunnelID t tunnelClose data hReg hm1 hm2 hl⟩
  · simp only [chanClosed, h3a]
  · simp only [chanClosed, h3b]
  · intro k u hk hu
    refine ⟨(mapGet_mapDelete_of_ne _ _ _ hk).trans hu, ?_⟩
    intro c hc
    obtain ⟨hca, hcb⟩ := tunnelsLive_apart σ tunnelID k t u hLive hReg hu hk c hc
    exact h3o c hca hcb
  · intro receiver
    simp only [tunnels.Close, hgone]

/-- Witness of C5 (amended): closing tunnel 7 in the sample state with tunnels 7 and 8; tunnel 8
stays registered. -/
theorem tunnels_Close_registered_spec_witness :
    tunnelsLive twoTunnelWorld ∧ tunnels.Get twoTunnelWorld 7 = some sampleTunnel ∧
    tunnels.Get twoTunnelWorld 8 = some secondTunnel ∧
    ∃ σ', tunnels.Close sampleExternals 7 true twoTunnelWorld = .ok none σ' ∧
      tunnels.Get σ' 7 = none ∧
      chanClosed σ'.byteChans sampleTunnel.Client.Send = true ∧
      chanClosed σ'.byteChans sampleTunnel.Client.Recv = true ∧
      tunnels.Get σ' 8 = some secondTunnel ∧
      tunnels.Close sampleExternals 7 true σ' = .ok (some .ErrInvalidTunnelID) σ' := by
  refine ⟨by decide, by decide, by decide, ?_⟩
  obtain ⟨σ', h1, h2, h3, h4, h5, h6, _⟩ :=
    tunnels_Close_registered_spec sampleExternals twoTunnelWorld 7 sampleTunnel
      (some [7, 1]) (some [0, 9, 7, 1]) (by decide) (by decide) rfl rfl
  exact ⟨σ', h1, h2, h3, h4, (h5 8 secondTunnel (by decide) (by decide)).1, h6 true⟩

/-- C5 as stated fails: tunnel 7 is registered in the sample state with tunnels 7 and 8
and serialization succeeds, but no goroutine receives from its `Session.Send`. `Close(7)`
never returns; the state is what it was, so tunnel 7 is still registered and its
client-facing channels are still open. -/
theorem tunnels_Close_registered_counterexample :
    tunnelsLive twoTunnelWorld ∧
    tunnels.Get twoTunnelWorld 7 = some sampleTunnel ∧
    tunnels.Close sampleExternals 7 false twoTunnelWorld = .blocked twoTunnelWorld ∧
    tunnels.Get (tunnels.Close sampleExternals 7 false twoTunnelWorld).world 7
      = some sampleTunnel ∧
    chanOpen (tunnels.Close sampleExternals 7 false twoTunnelWorld).world.byteChans
      sampleTunnel.Client.Send = true ∧
    chanOpen (tunnels.Close sampleExternals 7 false twoTunnelWorld).world.byteChans
      sampleTunnel.Client.Recv = true := by
  decide

/-- C6: for every state, with or without a receiver, `Tunnels.Close(tunnelID)` returns `ErrInvalidTunnelID` exactly
when `tunnelID` is not registered; a failure to serialize the `TunnelClose` message or
its envelope makes it return that error; and whenever `Close` returns an error the whole
state is what it was: the registry, every tunnel in it, and every channel (none closed,
nothing pushed). -/
theorem tunnels_Close_error_spec (x : Externals) (σ : World) (tunnelID : Nat)
    (receiver : Bool) :
    ((∃ σ', tunnels.Close x tunnelID receiver σ = .ok (some .ErrInvalidTunnelID) σ') ↔
      tunnels.Get σ tunnelID = none) ∧
    (tunnels.Get σ tunnelID = none →
      tunnels.Close x tunnelID receiver σ = .ok (some .ErrInvalidTunnelID) σ) ∧
    (∀ t e, tunnels.Get σ tunnelID = some t →
      x.marshalTunnelClose { TunnelID := t.ID, SessionID := t.SessionID } = .error e →
      tunnels.Close x tunnelID receiver σ = .ok (some (.proto e)) σ) ∧
    (∀ t tunnelClose e, tunnels.Get σ tunnelID = some t →
      x.marshalTunnelClose { TunnelID := t.ID, SessionID := t.SessionID } = .ok tunnelClose →
      x.marshalEnvelope { ID := 0, Type_ := x.MsgTunnelClose, Data := tunnelClose } = .error e →
      tunnels.Close x tunnelID receiver σ = .ok (some (.proto e)) σ) ∧
    (∀ err σ', tunnels.Close x tunnelID receiver σ = .ok (some err) σ' →
      σ' = σ ∧ (∀ k, tunnels.Get σ' k = tunnels.Get σ k) ∧
      σ'.byteChans = σ.byteChans ∧ σ'.envChans = σ.envChans) := by
  have hunknown : tunnels.Get σ tunnelID = none →
      tunnels.Close x tunnelID receiver σ = .ok (some .ErrInvalidTunnelID) σ := by
    intro h
    unfold tunnels.Get at h
    simp only [tunnels.Close, h]
  refine ⟨⟨?_, fun h => ⟨σ, hunknown h⟩⟩, hunknown, ?_, ?_, ?_⟩
  · rintro ⟨σ', h⟩
    exact (tunnels_Close_error_unchanged x σ σ' tunnelID receiver _ h).2 rfl
  · intro t e hg h1
    unfold tunnels.Get at hg
    simp only [tunnels.Close, hg, h1]
  · intro t tunnelClose e hg h1 h2
    unfold tunnels.Get at hg
    simp only [tunnels.Close, hg, h1, h2]
  · intro err σ' h
    obtain ⟨he, _⟩ := tunnels_Close_error_unchanged x σ σ' tunnelID receiver err h
    subst he
    exact ⟨rfl, fun _ => rfl, rfl, rfl⟩

/-- Witness of C6: with a failing serializer, closing the registered tunnel 7 of the
sample state returns the serializer's error and leaves the state as it was; closing the
unknown id 8 returns the invalid-tunnel-id error. -/
theorem tunnels_Close_error_spec_witness :
    tunnels.Get tunnelWorld 7 = some sampleTunnel ∧
    tunnels.Close failingExternals 7 true tunnelWorld
      = .ok (some (.proto "cannot serialize")) tunnelWorld ∧
    tunnels.Get tunnelWorld 8 = none ∧
    tunnels.Close failingExternals 8 false tunnelWorld
      = .ok (some .ErrInvalidTunnelID) tunnelWorld :=
  ⟨by decide,
   (tunnels_Close_error_spec failingExternals tunnelWorld 7 true).2.2.1 sampleTunnel
     "cannot serialize" (by decide) rfl,
   by decide,
   (tunnels_Close_error_spec failingExternals tunnelWorld 8 false).2.1 (by decide)⟩

/-- C7 (amended): in a registry kept by `Create` and `Close`, `Tunnels.Close` on a
registered id hands over (to the receiver that takes it) exactly one value, the serialized control envelope (id 0, the
tunnel-close message type, payload the serialized `TunnelClose` with the closed tunnel's
id and its session id), on the tunnel's own session-facing channel
`tunnel.Session.Send`, which is the channel `tunnel.Client.Recv`; no other byte channel
and no envelope channel, so no session's `Send` channel, receives anything. At the
hand-over both client-facing channels are still open and the tunnel is still
registered; the rest of the call is the teardown run from that state. Whether or not
a receiver takes the value, no envelope channel changes; without one, nothing changes
at all. -/
theorem tunnels_Close_notify_spec (x : Externals) (σ : World) (tunnelID : Nat)
    (t : Tunnel) (tunnelClose data : ByteSlice)
    (hLive : tunnelsLive σ)
    (hReg : tunnels.Get σ tunnelID = some t)
    (hm1 : x.marshalTunnelClose { TunnelID := t.ID, SessionID := t.SessionID } = .ok tunnelClose)
    (hm2 : x.marshalEnvelope { ID := 0, Type_ := x.MsgTunnelClose, Data := tunnelClose }
      = .ok data) :
    ∃ heap1 σ', t.ID = tunnelID ∧ t.Session.Send = t.Client.Recv ∧
      chanSend σ.byteChans t.Session.Send data true = .ok heap1 ∧
      chanOpen heap1 t.Client.Send = true ∧
      chanOpen heap1 t.Client.Recv = true ∧
      tunnels.Get { σ with byteChans := heap1 } tunnelID = some t ∧
      tunnels.Close x tunnelID true σ =
        tunnels.closeTeardown t tunnelID { σ with byteChans := heap1 } ∧
      tunnels.Close x tunnelID true σ = .ok none σ' ∧
      chanHistory σ'.byteChans t.Session.Send
        = chanHistory σ.byteChans t.Session.Send ++ [data] ∧
      (∀ c, c ≠ t.Session.Send →
        chanHistory σ'.byteChans c = chanHistory σ.byteChans c) ∧
      σ'.envChans = σ.envChans ∧
      (∀ receiver, (tunnels.Close x tunnelID receiver σ).world.envChans = σ.envChans) ∧
      tunnels.Close x tunnelID false σ = .blocked σ := by
  obtain ⟨hid, hl⟩ := tunnelsLive_entry σ tunnelID t hLive hReg
  obtain ⟨cha, chb, heap1, heap3, hcha, hca, hchb, _, hsend, h1a, h1b, _, hstep, hclose, h3a,
    h3b, h3o⟩ := tunnels_Close_live x σ tunnelID t tunnelClose data hReg hm1 hm2 hl
  have hss : t.Session.Send = t.Client.Recv := hl.2.2.2.1
  refine ⟨heap1, _, hid, hss, hsend, ?_, ?_, hReg, hstep, hclose, ?_, ?_, ?_,
    fun receiver => (tunnels_Close_envChans x σ tunnelID receiver).1,
    tunnels_Close_blocked x σ tunnelID t tunnelClose data hReg hm1 hm2 hl⟩
  · exact (chanOpen_iff _ _).2 ⟨_, h1a, hca⟩
  · exact (chanOpen_iff _ _).2 ⟨_, h1b, rfl⟩
  · rw [hss]
    simp only [chanHistory, h3b, hchb]
  · intro c hc
    rw [hss] at hc
    by_cases hcs : c = t.Client.Send
    · rw [hcs]
      simp only [chanHistory, h3a, hcha]
    · simp only [chanHistory, h3o c hcs hc]
  · rfl

/-- Witness of C7 (amended): closing tunnel 7 of the sample state. -/
theorem tunnels_Close_notify_spec_witness :
    tunnelsLive tunnelWorld ∧ tunnels.Get tunnelWorld 7 = some sampleTunnel ∧
    ∃ σ', tunnels.Close sampleExternals 7 true tunnelWorld = .ok none σ' ∧
      chanHistory σ'.byteChans sampleTunnel.Session.Send
        = chanHistory tunnelWorld.byteChans sampleTunnel.Session.Send ++ [some [0, 9, 7, 1]] ∧
      σ'.envChans = tunnelWorld.envChans := by
  refine ⟨by decide, by decide, ?_⟩
  obtain ⟨_, σ', _, _, _, _, _, _, _, h8, h9, _, h11, _⟩ :=
    tunnels_Close_notify_spec sampleExternals tunnelWorld 7 sampleTunnel
      (some [7, 1]) (some [0, 9, 7, 1]) (by decide) (by decide) rfl rfl
  exact ⟨σ', h8, h9, h11⟩

/-- C7 as stated fails: session 1 is registered with send channel 0 and owns tunnel 7;
`Close(7)`, with a receiver on the tunnel's channel, returns no error and the send channel of session 1 has received nothing (no
envelope channel has changed), while the control message went to the tunnel's own
`Session.Send` byte channel. -/
theorem tunnels_Close_notify_counterexample :
    sessions.Get tunnelWorld 1 = some sampleSession ∧
    tunnels.Get tunnelWorld 7 = some sampleTunnel ∧
    sampleTunnel.SessionID = 1 ∧
    tunnels.Close sampleExternals 7 true tunnelWorld
      = .ok none (tunnels.Close sampleExternals 7 true tunnelWorld).world ∧
    chanOpen tunnelWorld.envChans sampleSession.Send = true ∧
    chanHistory tunnelWorld.envChans sampleSession.Send = [] ∧
    chanHistory (tunnels.Close sampleExternals 7 true tunnelWorld).world.envChans
      sampleSession.Send = [] ∧
    (tunnels.Close sampleExternals 7 true tunnelWorld).world.envChans = tunnelWorld.envChans ∧
    chanHistory (tunnels.Close sampleExternals 7 true tunnelWorld).world.byteChans
      sampleTunnel.Session.Send = [some [0, 9, 7, 1]] := by
  decide

/-- C8 (amended): `Tunnels.Close` calls `close` on `Client.Send` and `Client.Recv` only,
and every other channel keeps its open or closed state; but in a registry kept by
`Create` and `Close` the tunnel's `Session.Send` is the channel `Client.Recv` and its
`Session.Recv` is the channel `Client.Send`, so after a successful `Close` both
session-facing channels are closed as well; so it is for a tunnel closed right after
`Create` returned it, in any state. A `Close` that finds no receiver for its control
message does not return and closes nothing. -/
theorem tunnels_Close_session_side_spec (x : Externals) (σ : World) (tunnelID : Nat)
    (t : Tunnel) (tunnelClose data : ByteSlice)
    (hLive : tunnelsLive σ)
    (hReg : tunnels.Get σ tunnelID = some t)
    (hm1 : x.marshalTunnelClose { TunnelID := t.ID, SessionID := t.SessionID } = .ok tunnelClose)
    (hm2 : x.marshalEnvelope { ID := 0, Type_ := x.MsgTunnelClose, Data := tunnelClose }
      = .ok data) :
    ∃ σ', tunnels.Close x tunnelID true σ = .ok none σ' ∧
      t.Session.Send = t.Client.Recv ∧ t.Session.Recv = t.Client.Send ∧
      chanOpen σ.byteChans t.Session.Send = true ∧
      chanOpen σ.byteChans t.Session.Recv = true ∧
      chanClosed σ'.byteChans t.Session.Send = true ∧
      chanClosed σ'.byteChans t.Session.Recv = true ∧
      (∀ c, c ≠ t.Client.Send → c ≠ t.Client.Recv →
        chanClosed σ'.byteChans c = chanClosed σ.byteChans c) ∧
      (∀ (σ0 : World) (sessionID : Nat) (s : Session) (tc d : ByteSlice),
        sessions.Get σ0 sessionID = some s →
        x.marshalTunnelClose { TunnelID := tunnelID, SessionID := s.ID } = .ok tc →
        x.marshalEnvelope { ID := 0, Type_ := x.MsgTunnelClose, Data := tc } = .ok d →
        ∃ u σ1 σ2, tunnels.Create sessionID tunnelID σ0 = .ok u σ1 ∧
          chanOpen σ1.byteChans u.Session.Send = true ∧
          chanOpen σ1.byteChans u.Session.Recv = true ∧
          tunnels.Close x tunnelID true σ1 = .ok none σ2 ∧
          chanClosed σ2.byteChans u.Session.Send = true ∧
          chanClosed σ2.byteChans u.Session.Recv = true) ∧
      tunnels.Close x tunnelID false σ = .blocked σ := by
  obtain ⟨_, hl⟩ := tunnelsLive_entry σ tunnelID t hLive hReg
  obtain ⟨cha, chb, heap1, heap3, _, _, _, _, _, _, _, _, _, hclose, h3a, h3b, h3o⟩ :=
    tunnels_Close_live x σ tunnelID t tunnelClose data hReg hm1 hm2 hl
  have hblocked := tunnels_Close_blocked x σ tunnelID t tunnelClose data hReg hm1 hm2 hl
  obtain ⟨hoa, hob, _, hss, hsr⟩ := hl
  refine ⟨_, hclose, hss, hsr, ?_, ?_, ?_, ?_, ?_, ?_, hblocked⟩
  · rw [hss]; exact hob
  · rw [hsr]; exact hoa
  · rw [hss]; simp only [chanClosed, h3b]
  · rw [hsr]; simp only [chanClosed, h3a]
  · intro c hca hcb
    simp only [chanClosed, h3o c hca hcb]
  · intro σ0 sessionID s tc d hGet h1 h2
    exact tunnels_Create_then_Close x σ0 sessionID tunnelID s tc d hGet h1 h2

/-- Witness of C8 (amended): closing tunnel 7 of the sample state. -/
theorem tunnels_Close_session_side_spec_witness :
    tunnelsLive tunnelWorld ∧ tunnels.Get tunnelWorld 7 = some sampleTunnel ∧
    ∃ σ', tunnels.Close sampleExternals 7 true tunnelWorld = .ok none σ' ∧
      chanClosed σ'.byteChans sampleTunnel.Session.Send = true ∧
      chanClosed σ'.byteChans sampleTunnel.Session.Recv = true := by
  refine ⟨by decide, by decide, ?_⟩
  obtain ⟨σ', h1, _, _, _, _, h6, h7, _⟩ :=
    tunnels_Close_session_side_spec sampleExternals tunnelWorld 7 sampleTunnel
      (some [7, 1]) (some [0, 9, 7, 1]) (by decide) (by decide) rfl rfl
  exact ⟨σ', h1, h6, h7⟩

/-- C8 as stated fails: the tunnel that `Create(1)` returns in the sample state has both
session-facing channels open; `Close` of it returns no error and afterwards its
`Session.Send` and its `Session.Recv` are closed. -/
theorem tunnels_Close_session_side_counterexample :
    tunnels.Create 1 7 sampleWorld = .ok sampleTunnel tunnelWorld ∧
    chanOpen tunnelWorld.byteChans sampleTunnel.Session.Send = true ∧
    chanOpen tunnelWorld.byteChans sampleTunnel.Session.Recv = true ∧
    tunnels.Close sampleExternals 7 true tunnelWorld
      = .ok none (tunnels.Close sampleExternals 7 true tunnelWorld).world ∧
    chanClosed (tunnels.Close sampleExternals 7 true tunnelWorld).world.byteChans
      sampleTunnel.Session.Send = true ∧
    chanClosed (tunnels.Close sampleExternals 7 true tunnelWorld).world.byteChans
      sampleTunnel.Session.Recv = true := by
  decide

/-! ### NextSessionID -/

/-- C9 (amended): while the counter stays below `2 ^ 32`, that is `start + N < 2 ^ 32`,
`N` calls of `NextSessionID` one after the other return exactly
`start + 1, ..., start + N` in that order, so the values are strictly increasing,
pairwise distinct and above zero, and each call advances the counter by exactly one;
from counter 0 the first three calls return 1, 2, 3. -/
theorem NextSessionID_sequence_spec (σ : World) (N : Nat) (h : σ.hiveID + N < 2 ^ 32) :
    (callNextSessionID N σ).1 = List.range' (σ.hiveID + 1) N ∧
    (callNextSessionID N σ).2.hiveID = σ.hiveID + N ∧
    List.Pairwise (fun a b => a < b) (callNextSessionID N σ).1 ∧
    (callNextSessionID N σ).1.Nodup ∧
    (∀ v ∈ (callNextSessionID N σ).1, 0 < v) ∧
    (0 < N → (NextSessionID σ).1 = σ.hiveID + 1 ∧
      (NextSessionID σ).2.hiveID = σ.hiveID + 1) ∧
    (callNextSessionID 3 World.init).1 = [1, 2, 3] := by
  obtain ⟨h1, h2⟩ := callNextSessionID_values N σ h
  refine ⟨h1, h2, ?_, ?_, ?_, ?_, ?_⟩
  · rw [h1]; exact List.pairwise_lt_range' _ _
  · rw [h1]; exact List.nodup_range' _ _
  · intro v hv
    rw [h1, List.mem_range'_1] at hv
    omega
  · intro hN
    have hmod : (σ.hiveID + 1) % 2 ^ 32 = σ.hiveID + 1 := Nat.mod_eq_of_lt (by omega)
    simp only [NextSessionID, hmod, and_self]
  · decide

/-- Witness of C9 (amended): five calls from counter 0. -/
theorem NextSessionID_sequence_spec_witness :
    (callNextSessionID 5 World.init).1 = List.range' (World.init.hiveID + 1) 5 ∧
    (callNextSessionID 5 World.init).2.hiveID = World.init.hiveID + 5 :=
  ⟨(NextSessionID_sequence_spec World.init 5 (by decide)).1,
   (NextSessionID_sequence_spec World.init 5 (by decide)).2.1⟩

/-- C9 as stated fails when the counter holds the largest `uint32`: the next call
returns 0, which is neither `start + 1` nor above zero, and the counter goes back to 0
instead of advancing by one. -/
theorem NextSessionID_wraps_counterexample :
    lastCounterWorld.hiveID = 4294967295 ∧
    (NextSessionID lastCounterWorld).1 = 0 ∧
    (NextSessionID lastCounterWorld).2.hiveID = 0 ∧
    (callNextSessionID 1 lastCounterWorld).1 = [0] ∧
    (callNextSessionID 1 lastCounterWorld).1 ≠ List.range' (lastCounterWorld.hiveID + 1) 1 ∧
    ¬ (∀ v ∈ (callNextSessionID 1 lastCounterWorld).1, 0 < v) := by
  decide

end Sliver
